import Mathlib

/-!
Shallow embedding of the pyclops core (pyclops/core.hpp together with the
example extension module) for checking its natural-language specification.

The host runtime (CPython 2.7) is external to the repository; its C-API
functions (`Py_INCREF`, `PyTuple_New`, `PyTuple_SetItem`, ...) are modelled
here following their documented CPython semantics.  Heap cells carry an
integer reference count; deallocation is not modelled, so a reference count
dropping below its true ownership (in particular below zero) is the visible
signature of an over-release.
-/

set_option autoImplicit false

namespace Pyclops

/-- Behaviour of a host-runtime callable, as needed by the embedded scenarios:
a callable either returns a constant, returns `m +` its first (integer)
argument, or raises. -/
inductive FnBeh where
  | constInt (k : Int)
  | addArg (m : Int)
  | raises
  deriving DecidableEq, Repr

/-- Payload of a host-runtime object.  `tupleV` slots are `Option Nat`
because CPython tuple slots are nullable `PyObject*` cells: `PyTuple_New`
leaves every slot NULL until it is set.  `extV` is an extension-type
instance holding a shared pointer (modelled as a native-heap address) and
its type tag.  `objV` is a generic object with a named-attribute table. -/
inductive PyVal where
  | noneV
  | tupleV (items : List (Option Nat))
  | dictV
  | intV (n : Int)
  | funcV (beh : FnBeh)
  | extV (cls : String) (holder : Nat)
  | objV (attrs : List (String × Nat))
  deriving DecidableEq, Repr

/-- A heap cell: reference count plus payload. -/
structure Entry where
  rc : Int
  val : PyVal
  deriving DecidableEq, Repr

/-- Lookup in an association list of heap cells. -/
def findEntry : List (Nat × Entry) → Nat → Option Entry
  | [], _ => Option.none
  | (b, e) :: t, a => if b = a then some e else findEntry t a

/-- Pointwise update of an association list of heap cells (no-op when the
address is absent). -/
def setEntry : List (Nat × Entry) → Nat → Entry → List (Nat × Entry)
  | [], _, _ => []
  | (b, e) :: t, a, e' => if b = a then (b, e') :: t else (b, e) :: setEntry t a e'

/-- The modelled process state: the host-runtime object heap, an allocation
counter, the native-side heap of `X`/`Base` objects (address ↦ payload of the
`x` field), its allocation counter, and a counter of native copy-constructor
invocations (used to state "exactly one copy per conversion"). -/
structure Heap where
  mem : List (Nat × Entry)
  next : Nat
  native : List (Nat × Int)
  nnext : Nat
  xCopies : Nat
  deriving DecidableEq, Repr

namespace Heap

def find? (h : Heap) (a : Nat) : Option Entry :=
  findEntry h.mem a

def set (h : Heap) (a : Nat) (e : Entry) : Heap :=
  { h with mem := setEntry h.mem a e }

/-- Reference count of the object at address `a`, when present. -/
def rcOf (h : Heap) (a : Nat) : Option Int :=
  (h.find? a).map Entry.rc

/-- Payload of the object at address `a`, when present. -/
def valOf (h : Heap) (a : Nat) : Option PyVal :=
  (h.find? a).map Entry.val

/-- Add `d` to the reference count at `a` (no-op when absent). -/
def modifyRc (h : Heap) (a : Nat) (d : Int) : Heap :=
  match h.find? a with
  | some e => h.set a ⟨e.rc + d, e.val⟩
  | Option.none => h

/-- Allocate a fresh object with reference count 1. -/
def alloc (h : Heap) (v : PyVal) : Nat × Heap :=
  (h.next, { h with mem := (h.next, ⟨1, v⟩) :: h.mem, next := h.next + 1 })

/-- Look up a native `X` object. -/
def nfind? (h : Heap) (p : Nat) : Option Int :=
  h.native.lookup p

/-- Allocate a fresh native `X` object by copy-construction from payload `v`
(bumps the copy counter, as the C++ copy constructor would run). -/
def nallocCopy (h : Heap) (v : Int) : Nat × Heap :=
  (h.nnext,
   { h with
     native := (h.nnext, v) :: h.native
     nnext := h.nnext + 1
     xCopies := h.xCopies + 1 })

end Heap

/-- The address of the `Py_None` singleton: every well-formed heap in the
scenarios below carries `noneV` at address 0. -/
def pyNoneAddr : Nat := 0

/-- Exceptions thrown by the C++ side.  `pyerr_occurred` is the repository's
own exception class (thrown when a handle is NULL or the host error
indicator is set); `typeMismatch` is the condition produced by the
spec-modelled `_throw` (see below); `nativeError` is `std::runtime_error`
with its message. -/
inductive PyErr where
  | pyerr_occurred (whereLbl : Option String)
  | typeMismatch (whereLbl : Option String)
  | nativeError (msg : String)
  deriving DecidableEq, Repr

/-- The modelling monad: state (the heap) threaded through both success and
failure, matching C++ exception propagation over a mutable heap. -/
def PyM (α : Type) : Type := EStateM PyErr Heap α

instance : Monad PyM := inferInstanceAs (Monad (EStateM PyErr Heap))
instance : MonadExceptOf PyErr PyM := inferInstanceAs (MonadExceptOf PyErr (EStateM PyErr Heap))
instance : MonadStateOf Heap PyM := inferInstanceAs (MonadStateOf Heap (EStateM PyErr Heap))

def PyM.run {α : Type} (x : PyM α) (h : Heap) : EStateM.Result PyErr Heap α :=
  EStateM.run x h

/-- Model of `Py_INCREF` (the argument is known non-NULL at call sites). -/
def pyIncref (a : Nat) : PyM Unit :=
  modify (fun h => h.modifyRc a 1)

/-- Model of `Py_XINCREF`: increment if non-NULL. -/
def pyXIncref : Option Nat → PyM Unit
  | Option.none => pure ()
  | some a => pyIncref a

/-- Model of `Py_XDECREF`: decrement if non-NULL.  Deallocation at zero is
not modelled; a count below zero records an over-release. -/
def pyXDecref : Option Nat → PyM Unit
  | Option.none => pure ()
  | some a => modify (fun h => h.modifyRc a (-1))

/-- Model of `PyTuple_Check`: does the payload carry the tuple tag?
Applying the C macro to NULL dereferences a null pointer (undefined
behaviour); the model conservatively answers `false` there — no theorem
below exercises that case. -/
def pyTupleCheck (h : Heap) (p : Option Nat) : Bool :=
  match p with
  | some a =>
      match h.valOf a with
      | some (PyVal.tupleV _) => true
      | _ => false
  | Option.none => false

/-- Model of `PyDict_Check` (NULL treated as in `pyTupleCheck`). -/
def pyDictCheck (h : Heap) (p : Option Nat) : Bool :=
  match p with
  | some a =>
      match h.valOf a with
      | some PyVal.dictV => true
      | _ => false
  | Option.none => false

/-- Model of `PyTuple_New n` (CPython): for `n < 0` it sets the host error
and returns NULL; otherwise it returns a fresh tuple, reference count 1,
whose `n` slots are all initialized to NULL. -/
def pyTupleNew (n : Int) : PyM (Option Nat) :=
  if n < 0 then pure Option.none
  else do
    let h ← get
    let (a, h') := h.alloc (PyVal.tupleV (List.replicate n.toNat Option.none))
    set h'
    pure (some a)

/-- Model of `PyTuple_Size`: the length for a tuple, `-1` (with the host
error set) otherwise (NULL treated as in `pyTupleCheck`). -/
def pyTupleSize (h : Heap) (p : Option Nat) : Int :=
  match p with
  | some a =>
      match h.valOf a with
      | some (PyVal.tupleV items) => (items.length : Int)
      | _ => -1
  | Option.none => -1

/-- Model of `PyTuple_GetItem` (CPython): NULL for a non-tuple or an
out-of-range position (the host error is set); otherwise the slot's borrowed
contents — which is itself NULL when the slot was never filled. -/
def pyTupleGetItem (h : Heap) (p : Option Nat) (pos : Int) : Option Nat :=
  match p with
  | some a =>
      match h.valOf a with
      | some (PyVal.tupleV items) =>
          if pos < 0 ∨ (items.length : Int) ≤ pos then Option.none
          else (items.getD pos.toNat Option.none)
      | _ => Option.none
  | Option.none => Option.none

/-- Model of `PyTuple_SetItem` (CPython): the reference to `x` is stolen.
On failure (non-tuple receiver, reference count ≠ 1, or position out of
range) the stolen reference is released (`Py_XDECREF(x)`) and `-1` is
returned with the host error set; on success the old slot contents are
released, the slot takes the reference, and `0` is returned. -/
def pyTupleSetItem (p : Option Nat) (pos : Int) (x : Option Nat) : PyM Int := do
  let h ← get
  match p with
  | some a =>
      match h.find? a with
      | some ⟨rc, PyVal.tupleV items⟩ =>
          if rc ≠ 1 then do
            pyXDecref x
            pure (-1)
          else if pos < 0 ∨ (items.length : Int) ≤ pos then do
            pyXDecref x
            pure (-1)
          else do
            let old := items.getD pos.toNat Option.none
            set (h.set a ⟨rc, PyVal.tupleV (items.set pos.toNat x)⟩)
            pyXDecref old
            pure 0
      | _ => do
          pyXDecref x
          pure (-1)
  | Option.none => do
      pyXDecref x
      pure (-1)

/-- Model of `PyDict_New`: a fresh empty dict, reference count 1. -/
def pyDictNew : PyM (Option Nat) := do
  let h ← get
  let (a, h') := h.alloc PyVal.dictV
  set h'
  pure (some a)

/-- Model of `PyObject_GetAttrString`: for a generic object, look the name
up in its attribute table and return a new reference; NULL (with the host
error set) when absent or when the receiver carries no attribute table. -/
def pyObjectGetAttrString (obj : Option Nat) (name : String) : PyM (Option Nat) := do
  let h ← get
  match obj with
  | some o =>
      match h.valOf o with
      | some (PyVal.objV attrs) =>
          match attrs.lookup name with
          | some a => do
              pyIncref a
              pure (some a)
          | Option.none => pure Option.none
      | _ => pure Option.none
  | Option.none => pure Option.none

/-- Model of `PyObject_Call(f, args, NULL)` for the callables of the
embedded scenarios: evaluates the callee's behaviour on the argument tuple
and returns a new reference to the result, or NULL (host error set) when
the callee is not callable, the arguments are malformed, or the callee
raises. -/
def pyObjectCall (f : Option Nat) (args : Option Nat) : PyM (Option Nat) := do
  let h ← get
  match f.bind h.valOf, args.bind h.valOf with
  | some (PyVal.funcV beh), some (PyVal.tupleV items) =>
      match beh with
      | FnBeh.constInt k => do
          let h ← get
          let (r, h') := h.alloc (PyVal.intV k)
          set h'
          pure (some r)
      | FnBeh.addArg m =>
          match items with
          | some a0 :: _ =>
              match h.valOf a0 with
              | some (PyVal.intV k) => do
                  let h ← get
                  let (r, h') := h.alloc (PyVal.intV (m + k))
                  set h'
                  pure (some r)
              | _ => pure Option.none
          | _ => pure Option.none
      | FnBeh.raises => pure Option.none
  | _, _ => pure Option.none

/-- The `py_object` wrapper: "Holds reference, can never be NULL" — except
transiently after being moved from, which the source models by nulling the
moved-from pointer. -/
structure py_object where
  ptr : Option Nat
  deriving DecidableEq, Repr

namespace py_object

/-- Source `py_object::py_object(PyObject *x, bool increment_refcount)`: throw
`pyerr_occurred()` when `x` is NULL, otherwise store it and increment the
count when asked to. -/
def fromRaw (x : Option Nat) (increment_refcount : Bool) : PyM py_object :=
  match x with
  | Option.none => throw (PyErr.pyerr_occurred Option.none)
  | some a => do
      if increment_refcount then pyIncref a
      pure ⟨some a⟩

/-- Source `py_object::borrowed_reference(x)`: `py_object(x, true)` — increment. -/
def borrowed_reference (x : Option Nat) : PyM py_object :=
  fromRaw x true

/-- Source `py_object::new_reference(x)`: `py_object(x, false)` — no increment. -/
def new_reference (x : Option Nat) : PyM py_object :=
  fromRaw x false

/-- Default constructor: `py_object(Py_None, true)`. -/
def mkDefault : PyM py_object :=
  fromRaw (some pyNoneAddr) true

/-- Copy constructor: `py_object(x.ptr, true)`. -/
def copyCtor (x : py_object) : PyM py_object :=
  fromRaw x.ptr true

/-- Move constructor: take the pointer, null the source, touch no count.
Returns (constructed object, moved-from source). -/
def moveCtor (x : py_object) : py_object × py_object :=
  (⟨x.ptr⟩, ⟨Option.none⟩)

/-- Destructor: `Py_XDECREF(ptr); ptr = nullptr;`. -/
def destroy (x : py_object) : PyM Unit :=
  pyXDecref x.ptr

/-- Copy assignment (distinct objects): `Py_XINCREF(x.ptr);
Py_XDECREF(this->ptr); this->ptr = x.ptr;`.  Returns the updated `this`
(`x` is untouched). -/
def copyAssign (this x : py_object) : PyM py_object := do
  pyXIncref x.ptr
  pyXDecref this.ptr
  pure ⟨x.ptr⟩

/-- Copy assignment specialised to self-assignment (`v = v`): `this` and
`x` alias the same object, so the source lines collapse to incrementing and
then decrementing `v.ptr` and a no-op store. -/
def copySelfAssign (v : py_object) : PyM py_object := do
  pyXIncref v.ptr
  pyXDecref v.ptr
  pure ⟨v.ptr⟩

/-- Move assignment (distinct objects): `this->ptr = x.ptr; x.ptr = NULL;`
— no count is touched and the old `this->ptr` is dropped without a
decrement.  Returns (updated this, moved-from x). -/
def moveAssign (_this x : py_object) : py_object × py_object :=
  (⟨x.ptr⟩, ⟨Option.none⟩)

/-- Move assignment specialised to self-assignment (`v = std::move(v)`):
under aliasing `this->ptr = x.ptr` is a no-op and `x.ptr = NULL` nulls the
single shared field, so the wrapper ends up holding NULL. -/
def moveSelfAssign (_v : py_object) : py_object :=
  ⟨Option.none⟩

/-- Source `is_none()`: pointer comparison with the `Py_None` singleton. -/
def is_none (v : py_object) : Bool :=
  v.ptr == some pyNoneAddr

end py_object

/-- The `py_tuple` view: a `py_object` (same single pointer field, via
inheritance) whose payload is guaranteed to carry the tuple tag. -/
structure py_tuple where
  ptr : Option Nat
  deriving DecidableEq, Repr

namespace py_tuple

/-- The base-class subobject of a `py_tuple`. -/
def toBase (t : py_tuple) : py_object :=
  ⟨t.ptr⟩

/-- Modelled from the spec: `py_tuple::_throw` is defined in
`exceptions.cpp`, which is not under src/.  Per the spec (§4.2) a tag
mismatch on a sequence view "fails with `TypeMismatch` (not
`HostErrorOccurred`) carrying a location label". -/
def _throw (whereLbl : Option String) : PyErr :=
  PyErr.typeMismatch whereLbl

/-- Source `py_tuple::_check(where)`: `if (!PyTuple_Check(this->ptr)) _throw(where);`. -/
def _check (t : py_tuple) (whereLbl : Option String) : PyM Unit := do
  let h ← get
  if ¬ pyTupleCheck h t.ptr then throw (_throw whereLbl) else pure ()

/-- Source `py_tuple::py_tuple(const py_object &x, const char *where)`: the base
initializer `py_object(x)` copies (incrementing the count), then the body
runs `this->_check()` — note the source does NOT forward `where` to
`_check`, so the check runs with its NULL default.  When `_check` throws,
C++ unwinding destroys the already-constructed base subobject (one
decrement). -/
def fromObjCopy (x : py_object) (_whereLbl : Option String) : PyM py_tuple := do
  let base ← py_object.copyCtor x
  let t : py_tuple := ⟨base.ptr⟩
  tryCatch (do t._check Option.none; pure t)
    (fun e => do py_object.destroy base; throw e)

/-- Source `py_tuple::py_tuple(py_object &&x, const char *where)`: despite the
rvalue-reference parameter, the base initializer `py_object(x)` names an
lvalue and therefore also invokes the `py_object` COPY constructor; the
body is identical to the copy overload (and again drops `where`). -/
def fromObjMove (x : py_object) (whereLbl : Option String) : PyM py_tuple :=
  fromObjCopy x whereLbl

/-- Source `py_tuple &operator=(const py_object &x)` (the source offers no
location-label parameter here): increment the new pointer, decrement the
old, install, then `this->_check()` with its NULL default. -/
def assignCopy (this : py_tuple) (x : py_object) : PyM py_tuple := do
  pyXIncref x.ptr
  pyXDecref this.ptr
  let t : py_tuple := ⟨x.ptr⟩
  t._check Option.none
  pure t

/-- Source `py_tuple &operator=(py_object &&x)`: install the pointer, null the
source, `this->_check()` with its NULL default.  Returns (updated this,
moved-from x). -/
def assignMove (_this : py_tuple) (x : py_object) : PyM (py_tuple × py_object) := do
  let t : py_tuple := ⟨x.ptr⟩
  t._check Option.none
  pure (t, ⟨Option.none⟩)

/-- Source `py_tuple::size()`: `PyTuple_Size(ptr)`. -/
def size (t : py_tuple) (h : Heap) : Int :=
  pyTupleSize h t.ptr

/-- Source `py_tuple::get_item(pos)`: wrap `PyTuple_GetItem(ptr, pos)` as a
borrowed reference (the `py_object` constructor throws `pyerr_occurred`
when the lookup returned NULL). -/
def get_item (t : py_tuple) (pos : Int) : PyM py_object := do
  let h ← get
  py_object.borrowed_reference (pyTupleGetItem h t.ptr pos)

/-- Source `py_tuple::set_item(pos, x)`: `PyTuple_SetItem` steals the reference;
the source then increments on success (`Py_INCREF(x.ptr)`; `x.ptr` is
non-NULL under the `py_object` invariant, hence the X variant here) and
throws `pyerr_occurred()` on failure. -/
def set_item (t : py_tuple) (pos : Int) (x : py_object) : PyM Unit := do
  let err ← pyTupleSetItem t.ptr pos x.ptr
  if err = 0 then
    pyXIncref x.ptr
  else
    throw (PyErr.pyerr_occurred Option.none)

/-- Source `py_tuple::make_empty(n)`: `return py_tuple::new_reference(PyTuple_New(n));`.
The inherited `new_reference` produces a `py_object` temporary (throwing
`pyerr_occurred` when `PyTuple_New` returned NULL, e.g. for n < 0); the
`py_tuple` return value is built from that temporary through the
`py_tuple(py_object&&)` constructor (whose base initializer copies and
which runs `_check()`); the temporary is then destroyed at the end of the
full expression. -/
def make_empty (n : Int) : PyM py_tuple := do
  let raw ← pyTupleNew n
  let tmp ← py_object.new_reference raw
  let t ← fromObjMove tmp Option.none
  py_object.destroy tmp
  pure t

end py_tuple

/-- Source `_set_tuple(t, pos, a, ap...)`: the head argument is first converted
(`converter<A>::to_python(a)`, here a pre-applied conversion action), the
temporary is handed to `set_item`, destroyed at the end of that full
expression (also when `set_item` throws, as C++ unwinding would do), and
the tail is processed at `pos + 1`.  The nullary overload does nothing. -/
def _set_tuple (t : py_tuple) (pos : Int) : List (PyM py_object) → PyM Unit
  | [] => pure ()
  | c :: cs => do
      let v ← c
      tryCatch (do t.set_item pos v; py_object.destroy v)
        (fun e => do py_object.destroy v; throw e)
      _set_tuple t (pos + 1) cs

/-- Source `py_tuple::make(args...)`: allocate via `make_empty(sizeof...(Args))`
then fill the slots left to right with `_set_tuple`.  When `_set_tuple`
throws, C++ unwinding destroys the local `ret` (one decrement) before the
exception leaves `make`. -/
def py_tuple.make (convs : List (PyM py_object)) : PyM py_tuple := do
  let ret ← py_tuple.make_empty (convs.length : Int)
  tryCatch (do _set_tuple ret 0 convs; pure ret)
    (fun e => do py_object.destroy ret.toBase; throw e)

/-- The `py_dict` view: a `py_object` guaranteed to carry the dict tag. -/
structure py_dict where
  ptr : Option Nat
  deriving DecidableEq, Repr

namespace py_dict

/-- Modelled from the spec: `py_dict::_throw` is defined in
`exceptions.cpp`, which is not under src/; as for `py_tuple`, a tag
mismatch on a mapping view fails with `TypeMismatch` carrying a location
label. -/
def _throw (whereLbl : Option String) : PyErr :=
  PyErr.typeMismatch whereLbl

/-- Source `py_dict::_check(where)`: `if (!PyDict_Check(this->ptr)) _throw(where);`. -/
def _check (d : py_dict) (whereLbl : Option String) : PyM Unit := do
  let h ← get
  if ¬ pyDictCheck h d.ptr then throw (_throw whereLbl) else pure ()

/-- Source `py_dict::py_dict()`: `py_object(PyDict_New(), false)` — adopt a fresh
empty dict. -/
def mkDefault : PyM py_dict := do
  let raw ← pyDictNew
  let base ← py_object.new_reference raw
  pure ⟨base.ptr⟩

/-- Source `py_dict::py_dict(const py_object &x, const char *where)`: copy the
base, then `this->_check()` — `where` again not forwarded. -/
def fromObjCopy (x : py_object) (_whereLbl : Option String) : PyM py_dict := do
  let base ← py_object.copyCtor x
  let d : py_dict := ⟨base.ptr⟩
  tryCatch (do d._check Option.none; pure d)
    (fun e => do py_object.destroy base; throw e)

/-- Source `py_dict::py_dict(py_object &&x, const char *where)`: as for
`py_tuple`, the base initializer copies; `where` is dropped. -/
def fromObjMove (x : py_object) (whereLbl : Option String) : PyM py_dict :=
  fromObjCopy x whereLbl

/-- Source `py_dict &operator=(const py_object &x)`: increment-new, decrement-old,
install, `this->_check()` with its NULL default. -/
def assignCopy (this : py_dict) (x : py_object) : PyM py_dict := do
  pyXIncref x.ptr
  pyXDecref this.ptr
  let d : py_dict := ⟨x.ptr⟩
  d._check Option.none
  pure d

/-- Source `py_dict &operator=(py_object &&x)`: install, null the source,
`this->_check()` with its NULL default. -/
def assignMove (_this : py_dict) (x : py_object) : PyM (py_dict × py_object) := do
  let d : py_dict := ⟨x.ptr⟩
  d._check Option.none
  pure (d, ⟨Option.none⟩)

end py_dict

/-- Source `py_object::call(const py_tuple &args)`: `PyObject_Call(ptr, args.ptr,
NULL)` wrapped as a new reference (throws `pyerr_occurred` when the call
returned NULL). -/
def py_object.call (f : py_object) (args : py_tuple) : PyM py_object := do
  let p ← pyObjectCall f.ptr args.ptr
  py_object.new_reference p

/-- Modelled from the spec: `converter<ssize_t>` lives in
`pyclops/converters.hpp`, which is not under src/.  Per §4.3 `to_python` of
an integral value produces a new reference to a freshly boxed integer. -/
def converter_ssize_t.to_python (n : Int) : PyM py_object := do
  let h ← get
  let (a, h') := h.alloc (PyVal.intV n)
  set h'
  py_object.new_reference (some a)

/-- Modelled from the spec: `converter<ssize_t>::from_python(obj, where)`
extracts the boxed integer; per §4.3/§7 a value of the wrong dynamic kind
fails with a `TypeMismatch` condition carrying the location label. -/
def converter_ssize_t.from_python (obj : py_object) (whereLbl : Option String) : PyM Int := do
  let h ← get
  match obj.ptr with
  | some a =>
      match h.valOf a with
      | some (PyVal.intV n) => pure n
      | _ => throw (PyErr.typeMismatch whereLbl)
  | Option.none => throw (PyErr.pyerr_occurred whereLbl)

/-- Modelled from the spec: `extension_type<T>::to_python(tobj, p)` (the
extension-type machinery is not under src/).  Per §4.5 it stores the shared
holder inside a fresh host proxy tagged with the class's type record and
returns it as a new reference; the pointee is not copied. -/
def extension_type.to_python (cls : String) (p : Nat) : PyM py_object := do
  let h ← get
  let (a, h') := h.alloc (PyVal.extV cls p)
  set h'
  py_object.new_reference (some a)

/-- Modelled from the spec: `extension_type<T>::shared_ptr_from_python(tobj,
obj, where)`.  Per §4.5 extraction validates the runtime type tag against
this binding's descriptor (`TypeMismatch` carrying the label on failure) and
returns the stored shared holder, incrementing shared ownership and never
copying the pointee. -/
def extension_type.shared_ptr_from_python (cls : String) (obj : py_object)
    (whereLbl : Option String) : PyM Nat := do
  let h ← get
  match obj.ptr with
  | some a =>
      match h.valOf a with
      | some (PyVal.extV c p) =>
          if c = cls then pure p else throw (PyErr.typeMismatch whereLbl)
      | _ => throw (PyErr.typeMismatch whereLbl)
  | Option.none => throw (PyErr.pyerr_occurred whereLbl)

/-- Source `converter<X>::from_python`: extract the shared holder, then `return
*p;` — dereferencing copies the X on extraction (one copy-constructor
invocation).  A dangling holder would be undefined behaviour in C++; the
model makes it a distinguishable error, and no scenario reaches it. -/
def converter_X.from_python (obj : py_object) (whereLbl : Option String) : PyM Int := do
  let p ← extension_type.shared_ptr_from_python "X" obj whereLbl
  let h ← get
  match h.nfind? p with
  | some v => do
      modify (fun hh => { hh with xCopies := hh.xCopies + 1 })
      pure v
  | Option.none => throw (PyErr.nativeError "dangling native holder (undefined behaviour)")

/-- Source `converter<X>::to_python`: `auto p = make_shared<X>(x);` copy-constructs
exactly one X into fresh shared storage, then hands the holder to
`extension_type<X>::to_python`. -/
def converter_X.to_python (v : Int) : PyM py_object := do
  let h ← get
  let (p, h') := h.nallocCopy v
  set h'
  extension_type.to_python "X" p

/-- Source `converter<shared_ptr<X>>::from_python`: forwards to
`shared_ptr_from_python` — shared ownership moves, the pointee is not
copied. -/
def converter_sharedX.from_python (obj : py_object) (whereLbl : Option String) : PyM Nat :=
  extension_type.shared_ptr_from_python "X" obj whereLbl

/-- Source `converter<shared_ptr<X>>::to_python`: forwards to
`extension_type<X>::to_python`. -/
def converter_sharedX.to_python (p : Nat) : PyM py_object :=
  extension_type.to_python "X" p

/-- Modelled from the spec: `py_weakref` (the pyclops weak-reference
wrapper is not under src/).  Per §3/§4.5 it is a non-owning back-reference
to the host proxy that must be validated before use; `dereference` yields
the proxy while it is alive (its reference count is still positive) and the
canonical none value once it has expired. -/
structure py_weakref where
  target : Option Nat
  deriving DecidableEq, Repr

/-- Modelled from the spec: `py_weakref::make(self)` records a non-owning
back-reference to `self` (no count is touched). -/
def py_weakref.make (self : py_object) : py_weakref :=
  ⟨self.ptr⟩

/-- Modelled from the spec: `py_weakref::dereference()` — the referent
(borrowed into a new wrapper) while alive, the none singleton once the
proxy has been destroyed. -/
def py_weakref.dereference (w : py_weakref) : PyM py_object := do
  let h ← get
  match w.target with
  | some a =>
      if 0 < (h.rcOf a).getD 0 then py_object.borrowed_reference (some a)
      else py_object.borrowed_reference (some pyNoneAddr)
  | Option.none => py_object.borrowed_reference (some pyNoneAddr)

/-- Source `PyBase` — a `Base` subclassed from python.  Only the weak
back-reference participates in the dispatch path (`name` does not). -/
structure PyBase where
  weakref : py_weakref
  deriving DecidableEq, Repr

/-- Source `PyBase::f(n)` from the source: dereference the weak reference and fail
(`runtime_error`, the spec's `DanglingOverrideReference`) when it has
expired; `PyObject_GetAttrString(obj, "f")` and fail (`runtime_error`, the
spec's `OverrideNotFound`) when NULL; otherwise wrap the attribute, build
the argument tuple with `py_tuple::make(n)`, call it, and convert the
result with `converter<ssize_t>::from_python(..., "Base.f")`.  Scope-exit
destructor calls of the locals only adjust reference counts and are elided;
no claim reads them. -/
def PyBase.f (b : PyBase) (n : Int) : PyM Int := do
  let obj ← b.weakref.dereference
  if obj.is_none then
    throw (PyErr.nativeError "PyBase.f(): weak reference expired!")
  let fp ← pyObjectGetAttrString obj.ptr "f"
  if fp = Option.none then
    throw (PyErr.nativeError "Base.f: pure virtual, but not defined in subclass")
  let func ← py_object.new_reference fp
  let args ← py_tuple.make [converter_ssize_t.to_python n]
  let res ← func.call args
  converter_ssize_t.from_python res (some "Base.f")

/-- The condition the spec names `DanglingOverrideReference`, as the source
realizes it. -/
def DanglingOverrideReference : PyErr :=
  PyErr.nativeError "PyBase.f(): weak reference expired!"

/-- The condition the spec names `OverrideNotFound`, as the source realizes
it. -/
def OverrideNotFound : PyErr :=
  PyErr.nativeError "Base.f: pure virtual, but not defined in subclass"

/-- Source `py_tuple` copy assignment specialised to self-assignment (`t = t`):
the aliased source lines collapse to increment, decrement, a no-op store,
and the re-check. -/
def py_tuple.copySelfAssign (t : py_tuple) : PyM py_tuple := do
  pyXIncref t.ptr
  pyXDecref t.ptr
  let t' : py_tuple := ⟨t.ptr⟩
  t'._check Option.none
  pure t'

/-- A conversion whose host-side allocation failed: the converter wraps the
NULL result, so the `py_object` constructor raises `pyerr_occurred` (the
host error is already set).  This is the generic failure shape of every
`to_python` in the codebase. -/
def failing_to_python : PyM py_object :=
  py_object.new_reference Option.none

/-- Value of a successful run. -/
def resultValue? {α : Type} : EStateM.Result PyErr Heap α → Option α
  | EStateM.Result.ok a _ => some a
  | EStateM.Result.error _ _ => Option.none

/-- Error of a failed run. -/
def resultError? {α : Type} : EStateM.Result PyErr Heap α → Option PyErr
  | EStateM.Result.error e _ => some e
  | EStateM.Result.ok _ _ => Option.none

/-- Final heap of a run (both outcomes carry one). -/
def resultHeap {α : Type} : EStateM.Result PyErr Heap α → Heap
  | EStateM.Result.ok _ h => h
  | EStateM.Result.error _ h => h

/-- Freshness invariant: the allocation counter dominates every allocated
address. -/
def Heap.fresh (h : Heap) : Prop :=
  ∀ p ∈ h.mem, p.1 < h.next

/-- Overwrite consecutive slots `pos, pos+1, ...` of a slot list with the
given addresses. -/
def fillFrom (items : List (Option Nat)) (pos : Nat) : List Nat → List (Option Nat)
  | [] => items
  | a :: as => fillFrom (items.set pos (some a)) (pos + 1) as

/-- A small concrete heap for witnesses and counterexamples: the none
singleton at address 0 and a boxed integer at address 1, each with
reference count 1. -/
def heap0 : Heap :=
  ⟨[(0, ⟨1, PyVal.noneV⟩), (1, ⟨1, PyVal.intV 7⟩)], 2, [], 0, 0⟩

/-- Concrete heap for the `set_item` failure scenario: the none singleton,
a 2-slot tuple at address 1 (reference count 1), and a boxed integer at
address 2 (reference count 1, owned by the caller's wrapper). -/
def c4Heap : Heap :=
  ⟨[(0, ⟨1, PyVal.noneV⟩),
    (1, ⟨1, PyVal.tupleV [Option.none, Option.none]⟩),
    (2, ⟨1, PyVal.intV 42⟩)], 3, [], 0, 0⟩

/-- Concrete heap for the view tag-mismatch scenario: the none singleton
and a dict at address 1. -/
def c8Heap : Heap :=
  ⟨[(0, ⟨1, PyVal.noneV⟩), (1, ⟨1, PyVal.dictV⟩)], 2, [], 0, 0⟩

/-- Parametric heap for the virtual-dispatch scenarios: the none singleton,
the host proxy at address 1 with reference count `prc` (1 = alive, 0 =
destroyed) and attribute table `attrs`, and a callable at address 2 with
behaviour `beh`. -/
def dispatchHeap (prc : Int) (attrs : List (String × Nat)) (beh : FnBeh) : Heap :=
  ⟨[(0, ⟨1, PyVal.noneV⟩), (1, ⟨prc, PyVal.objV attrs⟩), (2, ⟨1, PyVal.funcV beh⟩)],
   3, [], 0, 0⟩

/-- The `PyBase` instance whose back-reference targets the proxy at
address 1. -/
def pyb : PyBase :=
  ⟨⟨some 1⟩⟩

/-! Runner lemmas: one-step evaluation of the monadic embedding. -/

theorem PyM.run_bind_ok {α β : Type} {x : PyM α} {f : α → PyM β} {h h' : Heap} {a : α}
    (hx : x.run h = EStateM.Result.ok a h') : (x >>= f).run h = (f a).run h' := by
  show EStateM.bind x f h = _
  unfold EStateM.bind
  rw [show x h = EStateM.Result.ok a h' from hx]
  rfl

theorem PyM.run_bind_error {α β : Type} {x : PyM α} {f : α → PyM β} {h h' : Heap} {e : PyErr}
    (hx : x.run h = EStateM.Result.error e h') :
    (x >>= f).run h = EStateM.Result.error e h' := by
  show EStateM.bind x f h = _
  unfold EStateM.bind
  rw [show x h = EStateM.Result.error e h' from hx]

theorem findEntry_mem {l : List (Nat × Entry)} {a : Nat} {e : Entry}
    (hfa : findEntry l a = some e) : ∃ q ∈ l, q.1 = a := by
  induction l with
  | nil => simp [findEntry] at hfa
  | cons p t ih =>
      obtain ⟨b, eb⟩ := p
      by_cases hb : b = a
      · exact ⟨(b, eb), by simp, hb⟩
      · simp only [findEntry, if_neg hb] at hfa
        obtain ⟨q, hq, hq1⟩ := ih hfa
        exact ⟨q, by simp [hq], hq1⟩

theorem PyM.run_pure {α : Type} (a : α) (h : Heap) :
    (pure a : PyM α).run h = EStateM.Result.ok a h := rfl

theorem PyM.run_throw {α : Type} (e : PyErr) (h : Heap) :
    (throw e : PyM α).run h = EStateM.Result.error e h := rfl

theorem PyM.run_get (h : Heap) :
    (get : PyM Heap).run h = EStateM.Result.ok h h := rfl

theorem PyM.run_set (h' h : Heap) :
    (set h' : PyM Unit).run h = EStateM.Result.ok () h' := rfl

theorem PyM.run_modify (f : Heap → Heap) (h : Heap) :
    (modify f : PyM Unit).run h = EStateM.Result.ok () (f h) := rfl

theorem PyM.run_tryCatch_ok {α : Type} {x : PyM α} {f : PyErr → PyM α} {h h' : Heap} {a : α}
    (hx : x.run h = EStateM.Result.ok a h') :
    (tryCatch x f).run h = EStateM.Result.ok a h' := by
  show EStateM.tryCatch x f h = _
  unfold EStateM.tryCatch
  rw [show x h = EStateM.Result.ok a h' from hx]

theorem PyM.run_tryCatch_error {α : Type} {x : PyM α} {f : PyErr → PyM α} {h h' : Heap}
    {e : PyErr} (hx : x.run h = EStateM.Result.error e h') :
    (tryCatch x f).run h = (f e).run h' := by
  show EStateM.tryCatch x f h = _
  unfold EStateM.tryCatch
  rw [show x h = EStateM.Result.error e h' from hx]
  rfl

/-! Association-list heap lemmas. -/

theorem findEntry_setEntry_self (l : List (Nat × Entry)) (a : Nat) (e e' : Entry)
    (hf : findEntry l a = some e) : findEntry (setEntry l a e') a = some e' := by
  induction l with
  | nil => simp [findEntry] at hf
  | cons p t ih =>
      obtain ⟨b, eb⟩ := p
      by_cases hb : b = a
      · simp [findEntry, setEntry, hb]
      · simp [findEntry, setEntry, hb] at hf ⊢
        exact ih hf

theorem findEntry_setEntry_ne (l : List (Nat × Entry)) (a b : Nat) (e' : Entry)
    (hne : b ≠ a) : findEntry (setEntry l b e') a = findEntry l a := by
  induction l with
  | nil => simp [setEntry]
  | cons p t ih =>
      obtain ⟨c, ec⟩ := p
      by_cases hc : c = b
      · subst hc
        simp [findEntry, setEntry, hne]
      · simp [findEntry, setEntry, hc]
        by_cases hca : c = a <;> simp [hca, ih]

theorem setEntry_absent (l : List (Nat × Entry)) (a : Nat) (e' : Entry)
    (hf : findEntry l a = Option.none) : setEntry l a e' = l := by
  induction l with
  | nil => simp [setEntry]
  | cons p t ih =>
      obtain ⟨b, eb⟩ := p
      by_cases hb : b = a
      · simp [findEntry, hb] at hf
      · simp [findEntry, hb] at hf
        simp [setEntry, hb, ih hf]

theorem mem_setEntry_keys {l : List (Nat × Entry)} {a : Nat} {e' : Entry} {p : Nat × Entry}
    (hp : p ∈ setEntry l a e') : ∃ q ∈ l, q.1 = p.1 := by
  induction l with
  | nil => simp [setEntry] at hp
  | cons q t ih =>
      obtain ⟨b, eb⟩ := q
      by_cases hb : b = a
      · subst hb
        simp [setEntry] at hp
        rcases hp with hp | hp
        · exact ⟨(b, eb), by simp, by simp [hp]⟩
        · exact ⟨p, by simp [hp], rfl⟩
      · simp [setEntry, hb] at hp
        rcases hp with hp | hp
        · exact ⟨(b, eb), by simp, by simp [hp]⟩
        · obtain ⟨q, hq, hq1⟩ := ih hp
          exact ⟨q, by simp [hq], hq1⟩

namespace Heap

theorem find?_set_self {h : Heap} {a : Nat} {e : Entry} (e' : Entry)
    (hf : h.find? a = some e) : (h.set a e').find? a = some e' :=
  findEntry_setEntry_self h.mem a e e' hf

theorem find?_set_ne {h : Heap} {a b : Nat} (e' : Entry) (hne : b ≠ a) :
    (h.set b e').find? a = h.find? a :=
  findEntry_setEntry_ne h.mem a b e' hne

theorem find?_modifyRc_self {h : Heap} {a : Nat} {e : Entry} (d : Int)
    (hf : h.find? a = some e) : (h.modifyRc a d).find? a = some ⟨e.rc + d, e.val⟩ := by
  unfold modifyRc
  rw [hf]
  exact find?_set_self _ hf

theorem find?_modifyRc_ne {h : Heap} {a b : Nat} (d : Int) (hne : b ≠ a) :
    (h.modifyRc b d).find? a = h.find? a := by
  unfold modifyRc
  cases hfb : h.find? b with
  | none => rfl
  | some e => exact find?_set_ne _ hne

theorem rcOf_modifyRc_self {h : Heap} {a : Nat} {e : Entry} (d : Int)
    (hf : h.find? a = some e) : (h.modifyRc a d).rcOf a = some (e.rc + d) := by
  unfold rcOf
  rw [find?_modifyRc_self d hf]
  rfl

theorem valOf_modifyRc (h : Heap) (b : Nat) (d : Int) (a : Nat) :
    (h.modifyRc b d).valOf a = h.valOf a := by
  by_cases hb : b = a
  · subst hb
    cases hfb : h.find? b with
    | none => unfold modifyRc; rw [hfb]
    | some e =>
        unfold valOf
        rw [find?_modifyRc_self d hfb, hfb]
        rfl
  · unfold valOf
    rw [find?_modifyRc_ne d hb]

theorem next_set (h : Heap) (a : Nat) (e : Entry) : (h.set a e).next = h.next := rfl

theorem next_modifyRc (h : Heap) (a : Nat) (d : Int) : (h.modifyRc a d).next = h.next := by
  unfold modifyRc
  cases h.find? a <;> rfl

theorem fresh_set {h : Heap} {a : Nat} {e : Entry} (hf : h.fresh) : (h.set a e).fresh := by
  intro p hp
  obtain ⟨q, hq, hq1⟩ := mem_setEntry_keys hp
  rw [next_set, ← hq1]
  exact hf q hq

theorem fresh_modifyRc {h : Heap} (a : Nat) (d : Int) (hf : h.fresh) :
    (h.modifyRc a d).fresh := by
  unfold modifyRc
  cases h.find? a with
  | none => exact hf
  | some e => exact fresh_set hf

theorem fresh_alloc {h : Heap} (v : PyVal) (hf : h.fresh) : (h.alloc v).2.fresh := by
  intro p hp
  have hp' : p ∈ (h.next, (⟨1, v⟩ : Entry)) :: h.mem := hp
  show p.1 < h.next + 1
  rcases List.mem_cons.mp hp' with hp'' | hp''
  · simp [hp'']
  · exact Nat.lt_succ_of_lt (hf p hp'')

theorem find?_alloc_self (h : Heap) (v : PyVal) :
    (h.alloc v).2.find? h.next = some ⟨1, v⟩ := by
  show (if h.next = h.next then some (⟨1, v⟩ : Entry) else findEntry h.mem h.next) = some ⟨1, v⟩
  simp

theorem find?_alloc_ne {h : Heap} (v : PyVal) {a : Nat} (hne : a ≠ h.next) :
    (h.alloc v).2.find? a = h.find? a := by
  show (if h.next = a then some (⟨1, v⟩ : Entry) else findEntry h.mem a) = h.find? a
  rw [if_neg (fun hh => hne hh.symm)]
  rfl

theorem not_find?_of_fresh {h : Heap} (hf : h.fresh) {a : Nat} (ha : h.next ≤ a) :
    h.find? a = Option.none := by
  cases hfa : h.find? a with
  | none => rfl
  | some e =>
      exfalso
      obtain ⟨q, hq, hq1⟩ := findEntry_mem hfa
      have := hf q hq
      omega

end Heap

/-- Any successful run of the raw `py_object` constructor yields a non-null
wrapped handle (the constructor throws on NULL before storing). -/
theorem fromRaw_ok_nonnull {x : Option Nat} {b : Bool} {h h' : Heap} {v : py_object}
    (hr : (py_object.fromRaw x b).run h = EStateM.Result.ok v h') : v.ptr ≠ Option.none := by
  cases x with
  | none =>
      have hrun : (py_object.fromRaw Option.none b).run h
          = EStateM.Result.error (PyErr.pyerr_occurred Option.none) h := rfl
      rw [hrun] at hr
      cases hr
  | some a =>
      cases b with
      | true =>
          have hrun : (py_object.fromRaw (some a) true).run h
              = EStateM.Result.ok (⟨some a⟩ : py_object) (h.modifyRc a 1) := rfl
          rw [hrun] at hr
          injection hr with hv _
          subst hv
          simp
      | false =>
          have hrun : (py_object.fromRaw (some a) false).run h
              = EStateM.Result.ok (⟨some a⟩ : py_object) h := rfl
          rw [hrun] at hr
          injection hr with hv _
          subst hv
          simp

/-- C1: every attempt to construct a `py_object` from a NULL raw handle
fails with `pyerr_occurred` (the pending-host-error condition), and after
every successful construction — default, borrow (`borrowed_reference`),
adopt (`new_reference`), copy — the wrapped handle is non-null. -/
theorem C1_null_rejected_and_nonnull_after_construction (h : Heap) (b : Bool) (x : Option Nat) :
    ((py_object.fromRaw Option.none b).run h
        = EStateM.Result.error (PyErr.pyerr_occurred Option.none) h)
    ∧ (∀ (v : py_object) (h' : Heap),
        (py_object.borrowed_reference x).run h = EStateM.Result.ok v h' → v.ptr ≠ Option.none)
    ∧ (∀ (v : py_object) (h' : Heap),
        (py_object.new_reference x).run h = EStateM.Result.ok v h' → v.ptr ≠ Option.none)
    ∧ (∀ (v : py_object) (h' : Heap),
        py_object.mkDefault.run h = EStateM.Result.ok v h' → v.ptr ≠ Option.none)
    ∧ (∀ (w v : py_object) (h' : Heap),
        (py_object.copyCtor w).run h = EStateM.Result.ok v h' → v.ptr ≠ Option.none) := by
  refine ⟨rfl, ?_, ?_, ?_, ?_⟩
  · intro v h' hr
    exact fromRaw_ok_nonnull hr
  · intro v h' hr
    exact fromRaw_ok_nonnull hr
  · intro v h' hr
    exact fromRaw_ok_nonnull hr
  · intro w v h' hr
    exact fromRaw_ok_nonnull hr

/-- Witness for C1 at a concrete input: borrowing the boxed integer at
address 1 of `heap0` succeeds and the resulting wrapper is non-null. -/
theorem C1_witness : (⟨some 1⟩ : py_object).ptr ≠ Option.none :=
  (C1_null_rejected_and_nonnull_after_construction heap0 true (some 1)).2.1
    ⟨some 1⟩ (heap0.modifyRc 1 1) rfl

/-- C2: for a valid handle `a` live in the heap, borrow increments its
count by exactly 1, adopt leaves it (and the whole heap) unchanged, copy
construction increments by exactly 1, move construction and move
assignment perform no heap action at all (they only shuffle the pointer
and null the source), and destruction of a wrapper holding `a` decrements
by exactly 1. -/
theorem C2_refcount_deltas (h : Heap) (a : Nat) (e : Entry) (hfind : h.find? a = some e) :
    ((py_object.borrowed_reference (some a)).run h
        = EStateM.Result.ok (⟨some a⟩ : py_object) (h.modifyRc a 1)
      ∧ (h.modifyRc a 1).rcOf a = some (e.rc + 1))
    ∧ ((py_object.new_reference (some a)).run h
        = EStateM.Result.ok (⟨some a⟩ : py_object) h
      ∧ h.rcOf a = some e.rc)
    ∧ (∀ (w : py_object), w.ptr = some a →
        (py_object.copyCtor w).run h
            = EStateM.Result.ok (⟨some a⟩ : py_object) (h.modifyRc a 1)
          ∧ (h.modifyRc a 1).rcOf a = some (e.rc + 1))
    ∧ (∀ (w : py_object), py_object.moveCtor w = (⟨w.ptr⟩, ⟨Option.none⟩))
    ∧ (∀ (t w : py_object), py_object.moveAssign t w = (⟨w.ptr⟩, ⟨Option.none⟩))
    ∧ (∀ (w : py_object), w.ptr = some a →
        (py_object.destroy w).run h = EStateM.Result.ok () (h.modifyRc a (-1))
          ∧ (h.modifyRc a (-1)).rcOf a = some (e.rc - 1)) := by
  have hrc1 : (h.modifyRc a 1).rcOf a = some (e.rc + 1) := Heap.rcOf_modifyRc_self 1 hfind
  have hrcm : (h.modifyRc a (-1)).rcOf a = some (e.rc - 1) := by
    rw [Heap.rcOf_modifyRc_self (-1) hfind, Int.sub_eq_add_neg]
  refine ⟨⟨rfl, hrc1⟩, ⟨rfl, by simp [Heap.rcOf, hfind]⟩, ?_, fun w => rfl,
    fun t w => rfl, ?_⟩
  · intro w hw
    obtain ⟨wp⟩ := w
    cases hw
    exact ⟨rfl, hrc1⟩
  · intro w hw
    obtain ⟨wp⟩ := w
    cases hw
    exact ⟨rfl, hrcm⟩

/-- Witness for C2 at a concrete input: the boxed integer at address 1 of
`heap0` (count 1) has count 2 after a borrow and count 0 after destroying a
wrapper that held it. -/
theorem C2_witness :
    (heap0.modifyRc 1 1).rcOf 1 = some ((1 : Int) + 1)
    ∧ (heap0.modifyRc 1 (-1)).rcOf 1 = some ((1 : Int) - 1) :=
  ⟨(C2_refcount_deltas heap0 1 ⟨1, PyVal.intV 7⟩ rfl).1.2,
   ((C2_refcount_deltas heap0 1 ⟨1, PyVal.intV 7⟩ rfl).2.2.2.2.2 ⟨some 1⟩ rfl).2⟩

/-- C10: `get_item` on a valid tuple with an out-of-range position raises
`pyerr_occurred` (the positional lookup yields NULL, which the wrapper
constructor rejects), and `get_item` never returns a wrapper holding a
null handle. -/
theorem C10_get_item_out_of_range_raises (h : Heap) (a : Nat) (items : List (Option Nat))
    (pos : Int) (hval : h.valOf a = some (PyVal.tupleV items))
    (hrange : pos < 0 ∨ (items.length : Int) ≤ pos) :
    ((py_tuple.get_item ⟨some a⟩ pos).run h
        = EStateM.Result.error (PyErr.pyerr_occurred Option.none) h)
    ∧ (∀ (t : py_tuple) (q : Int) (v : py_object) (h' : Heap),
        (t.get_item q).run h = EStateM.Result.ok v h' → v.ptr ≠ Option.none) := by
  constructor
  · have hget : pyTupleGetItem h (some a) pos = Option.none := by
      have hred : pyTupleGetItem h (some a) pos
          = (match h.valOf a with
             | some (PyVal.tupleV its) =>
                 if pos < 0 ∨ (its.length : Int) ≤ pos then Option.none
                 else its.getD pos.toNat Option.none
             | _ => Option.none) := rfl
      rw [hred, hval]
      exact if_pos hrange
    have hrun : (py_tuple.get_item ⟨some a⟩ pos).run h
        = (py_object.borrowed_reference (pyTupleGetItem h (some a) pos)).run h := rfl
    rw [hrun, hget]
    rfl
  · intro t q v h' hr
    have hr' : (py_object.borrowed_reference (pyTupleGetItem h t.ptr q)).run h
        = EStateM.Result.ok v h' := hr
    exact fromRaw_ok_nonnull hr'

/-- Witness for C10 at a concrete input: reading position 5 of the 2-slot
tuple of `c4Heap` raises `pyerr_occurred`. -/
theorem C10_witness :
    (py_tuple.get_item ⟨some 1⟩ 5).run c4Heap
      = EStateM.Result.error (PyErr.pyerr_occurred Option.none) c4Heap :=
  (C10_get_item_out_of_range_raises c4Heap 1 [Option.none, Option.none] 5 rfl
    (by decide)).1

/-- Reference-count changes do not change what `PyTuple_Check` sees. -/
theorem pyTupleCheck_modifyRc (h : Heap) (b : Nat) (d : Int) (p : Option Nat) :
    pyTupleCheck (h.modifyRc b d) p = pyTupleCheck h p := by
  cases p with
  | none => rfl
  | some a => simp [pyTupleCheck, Heap.valOf_modifyRc]

/-- Reference-count changes do not change what `PyDict_Check` sees. -/
theorem pyDictCheck_modifyRc (h : Heap) (b : Nat) (d : Int) (p : Option Nat) :
    pyDictCheck (h.modifyRc b d) p = pyDictCheck h p := by
  cases p with
  | none => rfl
  | some a => simp [pyDictCheck, Heap.valOf_modifyRc]

/-- Running `py_tuple::_check` succeeds (without touching the heap) when the tag
matches. -/
theorem run_tuple_check_ok {t : py_tuple} {h : Heap} (hc : pyTupleCheck h t.ptr = true)
    (w : Option String) : (py_tuple._check t w).run h = EStateM.Result.ok () h := by
  show ((get : PyM Heap) >>= fun hh =>
      if ¬ pyTupleCheck hh t.ptr then throw (py_tuple._throw w) else pure ()).run h = _
  rw [PyM.run_bind_ok (PyM.run_get h)]
  simp [hc, PyM.run_pure]

/-- Running `py_tuple::_check` throws the spec-modelled `TypeMismatch` (without
touching the heap) when the tag does not match. -/
theorem run_tuple_check_fail {t : py_tuple} {h : Heap} (hc : pyTupleCheck h t.ptr = false)
    (w : Option String) :
    (py_tuple._check t w).run h = EStateM.Result.error (PyErr.typeMismatch w) h := by
  show ((get : PyM Heap) >>= fun hh =>
      if ¬ pyTupleCheck hh t.ptr then throw (py_tuple._throw w) else pure ()).run h = _
  rw [PyM.run_bind_ok (PyM.run_get h)]
  simp [hc, PyM.run_throw, py_tuple._throw]

/-- Running `py_dict::_check` succeeds when the tag matches. -/
theorem run_dict_check_ok {d : py_dict} {h : Heap} (hc : pyDictCheck h d.ptr = true)
    (w : Option String) : (py_dict._check d w).run h = EStateM.Result.ok () h := by
  show ((get : PyM Heap) >>= fun hh =>
      if ¬ pyDictCheck hh d.ptr then throw (py_dict._throw w) else pure ()).run h = _
  rw [PyM.run_bind_ok (PyM.run_get h)]
  simp [hc, PyM.run_pure]

/-- Running `py_dict::_check` throws the spec-modelled `TypeMismatch` when the tag
does not match. -/
theorem run_dict_check_fail {d : py_dict} {h : Heap} (hc : pyDictCheck h d.ptr = false)
    (w : Option String) :
    (py_dict._check d w).run h = EStateM.Result.error (PyErr.typeMismatch w) h := by
  show ((get : PyM Heap) >>= fun hh =>
      if ¬ pyDictCheck hh d.ptr then throw (py_dict._throw w) else pure ()).run h = _
  rw [PyM.run_bind_ok (PyM.run_get h)]
  simp [hc, PyM.run_throw, py_dict._throw]

/-- C5 counterexample: move self-assignment (`v = std::move(v)`) of the
wrapper holding address 1 leaves the wrapper holding NULL — not "the same,
intact value" the claim promises for move-assignment. -/
theorem C5_counterexample :
    (py_object.moveSelfAssign ⟨some 1⟩).ptr ≠ (⟨some 1⟩ : py_object).ptr := by decide

/-- C5 (amended): self copy-assignment of a `py_object` — and of a
`py_tuple` whose tag check passes — leaves the reference count unchanged
and the wrapper holding the same value; self move-assignment performs no
reference-count change but leaves the wrapper holding NULL (the value is
not retained). -/
theorem C5_amended_self_assignment (h : Heap) (v : py_object) (t : py_tuple) :
    (resultValue? ((py_object.copySelfAssign v).run h) = some ⟨v.ptr⟩
      ∧ (∀ (a : Nat) (e : Entry), v.ptr = some a → h.find? a = some e →
          (resultHeap ((py_object.copySelfAssign v).run h)).rcOf a = h.rcOf a))
    ∧ (pyTupleCheck h t.ptr = true →
        resultValue? ((py_tuple.copySelfAssign t).run h) = some ⟨t.ptr⟩
        ∧ (∀ (a : Nat) (e : Entry), t.ptr = some a → h.find? a = some e →
            (resultHeap ((py_tuple.copySelfAssign t).run h)).rcOf a = h.rcOf a))
    ∧ py_object.moveSelfAssign v = ⟨Option.none⟩ := by
  have hrcround : ∀ (a : Nat) (e : Entry), h.find? a = some e →
      ((h.modifyRc a 1).modifyRc a (-1)).rcOf a = h.rcOf a := by
    intro a e hfind
    have h1 : (h.modifyRc a 1).find? a = some ⟨e.rc + 1, e.val⟩ :=
      Heap.find?_modifyRc_self 1 hfind
    rw [Heap.rcOf_modifyRc_self (-1) h1]
    rw [Heap.rcOf, hfind]
    simp only [Option.map_some]
    congr 1
    omega
  refine ⟨⟨?_, ?_⟩, ?_, rfl⟩
  · cases hv : v.ptr with
    | none =>
        obtain ⟨vp⟩ := v
        cases hv
        rfl
    | some a =>
        obtain ⟨vp⟩ := v
        cases hv
        rfl
  · intro a e hv hfind
    obtain ⟨vp⟩ := v
    cases hv
    have hrun : (py_object.copySelfAssign ⟨some a⟩).run h
        = EStateM.Result.ok (⟨some a⟩ : py_object) ((h.modifyRc a 1).modifyRc a (-1)) := rfl
    rw [hrun]
    exact hrcround a e hfind
  · intro hcheck
    obtain ⟨tp⟩ := t
    cases tp with
    | none => simp [pyTupleCheck] at hcheck
    | some a =>
        have h2check : pyTupleCheck ((h.modifyRc a 1).modifyRc a (-1)) (some a) = true := by
          rw [pyTupleCheck_modifyRc, pyTupleCheck_modifyRc]
          exact hcheck
        have hrun : (py_tuple.copySelfAssign ⟨some a⟩).run h
            = ((py_tuple._check ⟨some a⟩ Option.none >>=
                fun _ => pure (⟨some a⟩ : py_tuple)).run ((h.modifyRc a 1).modifyRc a (-1))) :=
          rfl
        have hrun2 : (py_tuple.copySelfAssign ⟨some a⟩).run h
            = EStateM.Result.ok (⟨some a⟩ : py_tuple) ((h.modifyRc a 1).modifyRc a (-1)) := by
          rw [hrun, PyM.run_bind_ok (run_tuple_check_ok h2check Option.none)]
          rfl
        constructor
        · rw [hrun2]
          rfl
        · intro a' e hv hfind
          injection hv with hv'
          subst hv'
          rw [hrun2]
          exact hrcround _ e hfind

/-- Witness for C5 at a concrete input: self copy-assignment of the tuple
view at address 1 of `c4Heap` keeps the value and the reference count. -/
theorem C5_witness :
    resultValue? ((py_tuple.copySelfAssign ⟨some 1⟩).run c4Heap) = some ⟨some 1⟩
    ∧ (resultHeap ((py_tuple.copySelfAssign ⟨some 1⟩).run c4Heap)).rcOf 1 = c4Heap.rcOf 1 := by
  have hmain := (C5_amended_self_assignment c4Heap ⟨some 1⟩ ⟨some 1⟩).2.1 (by decide)
  exact ⟨hmain.1, hmain.2 1 ⟨1, PyVal.tupleV [Option.none, Option.none]⟩ rfl rfl⟩

/-- C4: evaluation at the failing input.  In `c4Heap` the caller's wrapper
`x` holds address 2 with reference count 1.  `set_item(5, x)` on the 2-slot
tuple fails: `PyTuple_SetItem` releases the stolen reference (count drops
to 0 — the claim says it is unchanged) and `pyerr_occurred` is thrown;
when the caller's wrapper is subsequently destroyed the count reaches −1,
the double-decrement the claim rules out.  The success path (position 0)
is also evaluated: the slot takes the handle and the net effect over the
call plus the caller's destruction is count 1 with the slot owning it —
the adopt-like transfer the claim describes. -/
theorem C4_set_item_failure_releases_callers_reference :
    (resultError? ((py_tuple.set_item ⟨some 1⟩ 5 ⟨some 2⟩).run c4Heap)
        = some (PyErr.pyerr_occurred Option.none)
      ∧ c4Heap.rcOf 2 = some 1
      ∧ (resultHeap ((py_tuple.set_item ⟨some 1⟩ 5 ⟨some 2⟩).run c4Heap)).rcOf 2 = some 0
      ∧ (resultHeap ((py_object.destroy ⟨some 2⟩).run
            (resultHeap ((py_tuple.set_item ⟨some 1⟩ 5 ⟨some 2⟩).run c4Heap)))).rcOf 2
          = some (-1))
    ∧ (resultValue? ((py_tuple.set_item ⟨some 1⟩ 0 ⟨some 2⟩).run c4Heap) = some ()
      ∧ (resultHeap ((py_tuple.set_item ⟨some 1⟩ 0 ⟨some 2⟩).run c4Heap)).valOf 1
          = some (PyVal.tupleV [some 2, Option.none])
      ∧ (resultHeap ((py_tuple.set_item ⟨some 1⟩ 0 ⟨some 2⟩).run c4Heap)).rcOf 2 = some 2
      ∧ (resultHeap ((py_object.destroy ⟨some 2⟩).run
            (resultHeap ((py_tuple.set_item ⟨some 1⟩ 0 ⟨some 2⟩).run c4Heap)))).rcOf 2
          = some 1) := by decide

/-- C7: evaluation at the failing input.  `make_empty(1)` on `heap0`
allocates the tuple at address 2; its single slot holds NULL, not the none
singleton (address 0), and reading that very slot with `get_item(0)` —
which is in range — raises `pyerr_occurred` instead of returning the none
value the claim (and the source comment) promise. -/
theorem C7_make_empty_slots_are_null_not_none :
    (resultValue? ((py_tuple.make_empty 1).run heap0) = some ⟨some 2⟩
      ∧ (resultHeap ((py_tuple.make_empty 1).run heap0)).valOf 2
          = some (PyVal.tupleV [Option.none])
      ∧ (Option.none : Option Nat) ≠ some pyNoneAddr
      ∧ resultError? ((py_tuple.get_item ⟨some 2⟩ 0).run
            (resultHeap ((py_tuple.make_empty 1).run heap0)))
          = some (PyErr.pyerr_occurred Option.none))
    ∧ (resultValue? ((py_tuple.make_empty 3).run heap0) = some ⟨some 2⟩
      ∧ (resultHeap ((py_tuple.make_empty 3).run heap0)).valOf 2
          = some (PyVal.tupleV [Option.none, Option.none, Option.none])) := by decide

/-- C8 counterexample: constructing a `py_tuple` from the dict at address 1
of `c8Heap` with the caller-supplied label "ctor" raises `TypeMismatch`
carrying NO label — the constructor accepts `where` but calls `_check()`
with its NULL default, so the error does not carry the caller's label as
the claim states. -/
theorem C8_counterexample :
    resultError? ((py_tuple.fromObjCopy ⟨some 1⟩ (some "ctor")).run c8Heap)
        = some (PyErr.typeMismatch Option.none)
    ∧ PyErr.typeMismatch Option.none ≠ PyErr.typeMismatch (some "ctor") := by decide

/-- C8 (amended): every construction of a `py_tuple` or `py_dict` view
from a `py_object`, and every assignment into one, re-validates the
runtime type tag; a mismatch fails with `TypeMismatch` (not
`HostErrorOccurred`) carrying a NULL location label — the constructors
accept a caller-supplied label but do not forward it to the check, and the
assignment operators accept none at all. -/
theorem C8_amended_views_revalidate_tag_with_null_label
    (h : Heap) (a b : Nat) (lbl : Option String) :
    (pyTupleCheck h (some a) = false →
        resultError? ((py_tuple.fromObjCopy ⟨some a⟩ lbl).run h)
            = some (PyErr.typeMismatch Option.none)
      ∧ resultError? ((py_tuple.fromObjMove ⟨some a⟩ lbl).run h)
            = some (PyErr.typeMismatch Option.none)
      ∧ resultError? ((py_tuple.assignCopy ⟨some b⟩ ⟨some a⟩).run h)
            = some (PyErr.typeMismatch Option.none)
      ∧ resultError? ((py_tuple.assignMove ⟨some b⟩ ⟨some a⟩).run h)
            = some (PyErr.typeMismatch Option.none))
    ∧ (pyTupleCheck h (some a) = true →
        resultValue? ((py_tuple.fromObjCopy ⟨some a⟩ lbl).run h) = some ⟨some a⟩
      ∧ resultValue? ((py_tuple.assignCopy ⟨some b⟩ ⟨some a⟩).run h) = some ⟨some a⟩)
    ∧ (pyDictCheck h (some a) = false →
        resultError? ((py_dict.fromObjCopy ⟨some a⟩ lbl).run h)
            = some (PyErr.typeMismatch Option.none)
      ∧ resultError? ((py_dict.fromObjMove ⟨some a⟩ lbl).run h)
            = some (PyErr.typeMismatch Option.none)
      ∧ resultError? ((py_dict.assignCopy ⟨some b⟩ ⟨some a⟩).run h)
            = some (PyErr.typeMismatch Option.none)
      ∧ resultError? ((py_dict.assignMove ⟨some b⟩ ⟨some a⟩).run h)
            = some (PyErr.typeMismatch Option.none))
    ∧ (pyDictCheck h (some a) = true →
        resultValue? ((py_dict.fromObjCopy ⟨some a⟩ lbl).run h) = some ⟨some a⟩) := by
  have htfc : ∀ lbl2 : Option String, (py_tuple.fromObjCopy ⟨some a⟩ lbl2).run h
      = (tryCatch ((py_tuple._check ⟨some a⟩ Option.none : PyM Unit) >>=
            fun _ => pure (⟨some a⟩ : py_tuple))
          (fun e => (py_object.destroy ⟨some a⟩ : PyM Unit) >>= fun _ => throw e)).run
          (h.modifyRc a 1) := fun _ => rfl
  have hdfc : ∀ lbl2 : Option String, (py_dict.fromObjCopy ⟨some a⟩ lbl2).run h
      = (tryCatch ((py_dict._check ⟨some a⟩ Option.none : PyM Unit) >>=
            fun _ => pure (⟨some a⟩ : py_dict))
          (fun e => (py_object.destroy ⟨some a⟩ : PyM Unit) >>= fun _ => throw e)).run
          (h.modifyRc a 1) := fun _ => rfl
  refine ⟨?_, ?_, ?_, ?_⟩
  · intro hf
    have hc1 : pyTupleCheck (h.modifyRc a 1) (some a) = false := by
      rw [pyTupleCheck_modifyRc]; exact hf
    have hc2 : pyTupleCheck ((h.modifyRc a 1).modifyRc b (-1)) (some a) = false := by
      rw [pyTupleCheck_modifyRc, pyTupleCheck_modifyRc]; exact hf
    refine ⟨?_, ?_, ?_, ?_⟩
    · rw [htfc lbl,
        PyM.run_tryCatch_error (PyM.run_bind_error (run_tuple_check_fail hc1 Option.none))]
      rfl
    · rw [show (py_tuple.fromObjMove ⟨some a⟩ lbl).run h
            = (py_tuple.fromObjCopy ⟨some a⟩ lbl).run h from rfl, htfc lbl,
        PyM.run_tryCatch_error (PyM.run_bind_error (run_tuple_check_fail hc1 Option.none))]
      rfl
    · rw [show (py_tuple.assignCopy ⟨some b⟩ ⟨some a⟩).run h
            = ((py_tuple._check ⟨some a⟩ Option.none : PyM Unit) >>=
                fun _ => pure (⟨some a⟩ : py_tuple)).run
                ((h.modifyRc a 1).modifyRc b (-1)) from rfl,
        PyM.run_bind_error (run_tuple_check_fail hc2 Option.none)]
      rfl
    · rw [show (py_tuple.assignMove ⟨some b⟩ ⟨some a⟩).run h
            = ((py_tuple._check ⟨some a⟩ Option.none : PyM Unit) >>=
                fun _ => pure ((⟨some a⟩ : py_tuple), (⟨Option.none⟩ : py_object))).run h
            from rfl,
        PyM.run_bind_error (run_tuple_check_fail hf Option.none)]
      rfl
  · intro ht
    have hc1 : pyTupleCheck (h.modifyRc a 1) (some a) = true := by
      rw [pyTupleCheck_modifyRc]; exact ht
    have hc2 : pyTupleCheck ((h.modifyRc a 1).modifyRc b (-1)) (some a) = true := by
      rw [pyTupleCheck_modifyRc, pyTupleCheck_modifyRc]; exact ht
    constructor
    · have hin : ((py_tuple._check ⟨some a⟩ Option.none : PyM Unit) >>=
          fun _ => pure (⟨some a⟩ : py_tuple)).run (h.modifyRc a 1)
          = EStateM.Result.ok (⟨some a⟩ : py_tuple) (h.modifyRc a 1) := by
        rw [PyM.run_bind_ok (run_tuple_check_ok hc1 Option.none)]
        rfl
      rw [htfc lbl, PyM.run_tryCatch_ok hin]
      rfl
    · rw [show (py_tuple.assignCopy ⟨some b⟩ ⟨some a⟩).run h
            = ((py_tuple._check ⟨some a⟩ Option.none : PyM Unit) >>=
                fun _ => pure (⟨some a⟩ : py_tuple)).run
                ((h.modifyRc a 1).modifyRc b (-1)) from rfl,
        PyM.run_bind_ok (run_tuple_check_ok hc2 Option.none)]
      rfl
  · intro hf
    have hc1 : pyDictCheck (h.modifyRc a 1) (some a) = false := by
      rw [pyDictCheck_modifyRc]; exact hf
    have hc2 : pyDictCheck ((h.modifyRc a 1).modifyRc b (-1)) (some a) = false := by
      rw [pyDictCheck_modifyRc, pyDictCheck_modifyRc]; exact hf
    refine ⟨?_, ?_, ?_, ?_⟩
    · rw [hdfc lbl,
        PyM.run_tryCatch_error (PyM.run_bind_error (run_dict_check_fail hc1 Option.none))]
      rfl
    · rw [show (py_dict.fromObjMove ⟨some a⟩ lbl).run h
            = (py_dict.fromObjCopy ⟨some a⟩ lbl).run h from rfl, hdfc lbl,
        PyM.run_tryCatch_error (PyM.run_bind_error (run_dict_check_fail hc1 Option.none))]
      rfl
    · rw [show (py_dict.assignCopy ⟨some b⟩ ⟨some a⟩).run h
            = ((py_dict._check ⟨some a⟩ Option.none : PyM Unit) >>=
                fun _ => pure (⟨some a⟩ : py_dict)).run
                ((h.modifyRc a 1).modifyRc b (-1)) from rfl,
        PyM.run_bind_error (run_dict_check_fail hc2 Option.none)]
      rfl
    · rw [show (py_dict.assignMove ⟨some b⟩ ⟨some a⟩).run h
            = ((py_dict._check ⟨some a⟩ Option.none : PyM Unit) >>=
                fun _ => pure ((⟨some a⟩ : py_dict), (⟨Option.none⟩ : py_object))).run h
            from rfl,
        PyM.run_bind_error (run_dict_check_fail hf Option.none)]
      rfl
  · intro ht
    have hc1 : pyDictCheck (h.modifyRc a 1) (some a) = true := by
      rw [pyDictCheck_modifyRc]; exact ht
    have hin : ((py_dict._check ⟨some a⟩ Option.none : PyM Unit) >>=
        fun _ => pure (⟨some a⟩ : py_dict)).run (h.modifyRc a 1)
        = EStateM.Result.ok (⟨some a⟩ : py_dict) (h.modifyRc a 1) := by
      rw [PyM.run_bind_ok (run_dict_check_ok hc1 Option.none)]
      rfl
    rw [hdfc lbl, PyM.run_tryCatch_ok hin]
    rfl

/-- Witness for C8 at a concrete input: on `c8Heap` (dict at address 1)
the tuple-view constructor with label "L" fails with an unlabelled
`TypeMismatch` while the dict-view constructor succeeds. -/
theorem C8_witness :
    resultError? ((py_tuple.fromObjCopy ⟨some 1⟩ (some "L")).run c8Heap)
        = some (PyErr.typeMismatch Option.none)
    ∧ resultValue? ((py_dict.fromObjCopy ⟨some 1⟩ (some "L")).run c8Heap) = some ⟨some 1⟩ :=
  ⟨((C8_amended_views_revalidate_tag_with_null_label c8Heap 1 0 (some "L")).1
      (by decide)).1,
   (C8_amended_views_revalidate_tag_with_null_label c8Heap 1 0 (some "L")).2.2.2
      (by decide)⟩

/-- C9: for every native value `v`, the value-semantics converter for `X`
round-trips (`from_python (to_python v) = v`) and `to_python` performs
exactly one `X` copy-construction; for every shared holder `p`, the
`shared_ptr<X>` converter round-trips to the identical pointee address with
no copy of the pointee at all. -/
theorem C9_converter_round_trips (v : Int) (p : Nat) :
    resultValue? ((converter_X.to_python v >>= fun o =>
        converter_X.from_python o Option.none).run heap0) = some v
    ∧ (resultHeap ((converter_X.to_python v).run heap0)).xCopies = heap0.xCopies + 1
    ∧ resultValue? ((converter_sharedX.to_python p >>= fun o =>
        converter_sharedX.from_python o Option.none).run heap0) = some p
    ∧ (resultHeap ((converter_sharedX.to_python p >>= fun o =>
        converter_sharedX.from_python o Option.none).run heap0)).xCopies = heap0.xCopies :=
  ⟨rfl, rfl, rfl, rfl⟩

set_option maxHeartbeats 4000000 in
/-- C3: virtual dispatch through `PyBase::f`.  With the proxy destroyed
(reference count 0) the call fails with the `DanglingOverrideReference`
condition; with a live proxy lacking an "f" attribute it fails with the
`OverrideNotFound` condition; with a live proxy whose "f" attribute is a
callable computing `m + n`, the call returns `m + n` converted back to the
native integer type. -/
theorem C3_virtual_dispatch (m n : Int) :
    resultError? ((PyBase.f pyb n).run (dispatchHeap 0 [("f", 2)] (FnBeh.addArg m)))
        = some DanglingOverrideReference
    ∧ resultError? ((PyBase.f pyb n).run (dispatchHeap 1 [] (FnBeh.addArg m)))
        = some OverrideNotFound
    ∧ resultValue? ((PyBase.f pyb n).run (dispatchHeap 1 [("f", 2)] (FnBeh.addArg m)))
        = some (m + n) :=
  ⟨rfl, rfl, rfl⟩

/-! Support lemmas for the `_set_tuple` induction. -/

theorem getD_set_ne : ∀ (l : List (Option Nat)) (i j : Nat), i ≠ j → ∀ (x : Option Nat),
    (l.set i x).getD j Option.none = l.getD j Option.none := by
  intro l
  induction l with
  | nil => intro i j _ x; rfl
  | cons y t ih =>
      intro i j hne x
      cases i with
      | zero =>
          cases j with
          | zero => exact absurd rfl hne
          | succ j' => rfl
      | succ i' =>
          cases j with
          | zero => rfl
          | succ j' =>
              show (t.set i' x).getD j' Option.none = t.getD j' Option.none
              exact ih i' j' (fun hh => hne (by rw [hh])) x

theorem getD_set_self : ∀ (l : List (Option Nat)) (i : Nat), i < l.length →
    ∀ (x : Option Nat), (l.set i x).getD i Option.none = x := by
  intro l
  induction l with
  | nil => intro i hi; simp at hi
  | cons y t ih =>
      intro i hi x
      cases i with
      | zero => rfl
      | succ i' =>
          show (t.set i' x).getD i' Option.none = x
          exact ih i' (by simpa using hi) x

theorem getD_replicate_none : ∀ (n j : Nat),
    (List.replicate n (Option.none : Option Nat)).getD j Option.none = Option.none := by
  intro n
  induction n with
  | zero => intro j; rfl
  | succ n' ih =>
      intro j
      cases j with
      | zero => rfl
      | succ j' => exact ih j'

theorem fillFrom_shift : ∀ (addrs : List Nat) (y : Option Nat) (items : List (Option Nat))
    (pos : Nat), fillFrom (y :: items) (pos + 1) addrs = y :: fillFrom items pos addrs := by
  intro addrs
  induction addrs with
  | nil => intro y items pos; rfl
  | cons a as ih =>
      intro y items pos
      show fillFrom ((y :: items).set (pos + 1) (some a)) (pos + 2) as
          = y :: fillFrom (items.set pos (some a)) (pos + 1) as
      have hset : (y :: items).set (pos + 1) (some a) = y :: items.set pos (some a) := rfl
      rw [hset]
      exact ih y (items.set pos (some a)) (pos + 1)

theorem fillFrom_replicate : ∀ (addrs : List Nat) (n : Nat), addrs.length ≤ n →
    fillFrom (List.replicate n (Option.none : Option Nat)) 0 addrs
      = addrs.map some ++ List.replicate (n - addrs.length) Option.none := by
  intro addrs
  induction addrs with
  | nil => intro n _; rfl
  | cons a as ih =>
      intro n hn
      cases n with
      | zero => simp at hn
      | succ n' =>
          show fillFrom ((List.replicate (n' + 1) (Option.none : Option Nat)).set 0 (some a))
              1 as = _
          have hset : (List.replicate (n' + 1) (Option.none : Option Nat)).set 0 (some a)
              = some a :: List.replicate n' Option.none := rfl
          rw [hset, show (1 : Nat) = 0 + 1 from rfl, fillFrom_shift]
          rw [ih n' (by simpa using hn)]
          simp [List.replicate]

/-- Evaluation of `converter<ssize_t>::to_python`: a fresh boxed integer at
the allocation pointer, adopted without an extra increment. -/
theorem run_conv_ssize_to_python (h : Heap) (k : Int) :
    (converter_ssize_t.to_python k).run h
      = EStateM.Result.ok (⟨some h.next⟩ : py_object) (h.alloc (PyVal.intV k)).2 := rfl

/-- Evaluation of `failing_to_python`: the conversion raises
`pyerr_occurred` and leaves the heap untouched. -/
theorem run_failing_to_python (h : Heap) :
    failing_to_python.run h
      = EStateM.Result.error (PyErr.pyerr_occurred Option.none) h := rfl

/-- Successful `PyTuple_SetItem` on a reference-count-1 tuple with an
in-range, still-unset slot: the slot takes the handle. -/
theorem run_pyTupleSetItem_ok {h : Heap} {a : Nat} {items : List (Option Nat)}
    (pos : Nat) (x : Option Nat)
    (hfind : h.find? a = some ⟨1, PyVal.tupleV items⟩)
    (hpos : pos < items.length)
    (hold : items.getD pos Option.none = Option.none) :
    (pyTupleSetItem (some a) (pos : Int) x).run h
      = EStateM.Result.ok 0 (h.set a ⟨1, PyVal.tupleV (items.set pos x)⟩) := by
  show ((get : PyM Heap) >>= fun hh =>
      (match hh.find? a with
       | some ⟨rc, PyVal.tupleV its⟩ =>
           if rc ≠ 1 then do
             pyXDecref x
             pure (-1)
           else if ((pos : Nat) : Int) < 0 ∨ (its.length : Int) ≤ ((pos : Nat) : Int) then do
             pyXDecref x
             pure (-1)
           else do
             let old := its.getD ((pos : Nat) : Int).toNat Option.none
             set (hh.set a ⟨rc, PyVal.tupleV (its.set ((pos : Nat) : Int).toNat x)⟩)
             pyXDecref old
             pure 0
       | _ => do
           pyXDecref x
           pure (-1) : PyM Int)).run h = _
  rw [PyM.run_bind_ok (PyM.run_get h)]
  simp only [hfind]
  rw [if_neg (by decide : ¬ ((1 : Int) ≠ 1))]
  rw [if_neg (by omega :
      ¬ (((pos : Nat) : Int) < 0 ∨ ((items.length : Int) ≤ ((pos : Nat) : Int))))]
  simp only [Int.toNat_ofNat]
  rw [hold]
  rfl

/-- One `_set_tuple` step after the conversion: `set_item` succeeds and the
converted temporary is destroyed. -/
theorem run_set_item_step {h : Heap} {ta : Nat} {items : List (Option Nat)}
    (pos b : Nat)
    (hfind : h.find? ta = some ⟨1, PyVal.tupleV items⟩)
    (hpos : pos < items.length)
    (hold : items.getD pos Option.none = Option.none) :
    (tryCatch ((py_tuple.set_item ⟨some ta⟩ (pos : Int) ⟨some b⟩ : PyM Unit) >>= fun _ =>
        py_object.destroy ⟨some b⟩)
      (fun e => (py_object.destroy ⟨some b⟩ : PyM Unit) >>= fun _ => throw e)).run h
      = EStateM.Result.ok ()
          (((h.set ta ⟨1, PyVal.tupleV (items.set pos (some b))⟩).modifyRc b 1).modifyRc b
            (-1)) := by
  have h1 : (py_tuple.set_item ⟨some ta⟩ (pos : Int) ⟨some b⟩).run h
      = EStateM.Result.ok ()
          ((h.set ta ⟨1, PyVal.tupleV (items.set pos (some b))⟩).modifyRc b 1) := by
    show ((pyTupleSetItem (some ta) (pos : Int) (some b) : PyM Int) >>= fun err =>
        if err = 0 then pyXIncref (some b)
        else throw (PyErr.pyerr_occurred Option.none)).run h = _
    rw [PyM.run_bind_ok (run_pyTupleSetItem_ok pos (some b) hfind hpos hold)]
    rfl
  have h2 : ((py_tuple.set_item ⟨some ta⟩ (pos : Int) ⟨some b⟩ : PyM Unit) >>= fun _ =>
      py_object.destroy ⟨some b⟩).run h
      = EStateM.Result.ok ()
          (((h.set ta ⟨1, PyVal.tupleV (items.set pos (some b))⟩).modifyRc b 1).modifyRc b
            (-1)) := by
    rw [PyM.run_bind_ok h1]
    rfl
  exact PyM.run_tryCatch_ok h2

/-- Evaluation of `py_tuple::make_empty(n)` for a natural `n`: a fresh
tuple at the allocation pointer, reference count settling back to 1, with
all `n` slots NULL; no other address changes its payload. -/
theorem run_make_empty_nat (h : Heap) (n : Nat) :
    ∃ hB : Heap,
      (py_tuple.make_empty ((n : Nat) : Int)).run h
          = EStateM.Result.ok (⟨some h.next⟩ : py_tuple) hB
      ∧ hB.find? h.next = some ⟨1, PyVal.tupleV (List.replicate n Option.none)⟩
      ∧ (h.fresh → hB.fresh)
      ∧ hB.next = h.next + 1
      ∧ (∀ b, b ≠ h.next → hB.valOf b = h.valOf b) := by
  set hA := (h.alloc (PyVal.tupleV (List.replicate n Option.none))).2 with hAdef
  have hnew : (pyTupleNew ((n : Nat) : Int)).run h = EStateM.Result.ok (some h.next) hA := by
    unfold pyTupleNew
    rw [if_neg (by omega : ¬ ((n : Nat) : Int) < 0)]
    rw [Int.toNat_ofNat]
    rfl
  have hAfind : hA.find? h.next = some ⟨1, PyVal.tupleV (List.replicate n Option.none)⟩ :=
    Heap.find?_alloc_self h _
  have hAval : hA.valOf h.next = some (PyVal.tupleV (List.replicate n Option.none)) := by
    unfold Heap.valOf
    rw [hAfind]
    rfl
  have hchk : pyTupleCheck (hA.modifyRc h.next 1) (some h.next) = true := by
    rw [pyTupleCheck_modifyRc]
    have hred : pyTupleCheck hA (some h.next)
        = (match hA.valOf h.next with
           | some (PyVal.tupleV _) => true
           | _ => false) := rfl
    rw [hred, hAval]
  have hfoc : (py_tuple.fromObjMove (⟨some h.next⟩ : py_object) Option.none).run hA
      = EStateM.Result.ok (⟨some h.next⟩ : py_tuple) (hA.modifyRc h.next 1) := by
    have hin : ((py_tuple._check ⟨some h.next⟩ Option.none : PyM Unit) >>=
        fun _ => pure (⟨some h.next⟩ : py_tuple)).run (hA.modifyRc h.next 1)
        = EStateM.Result.ok (⟨some h.next⟩ : py_tuple) (hA.modifyRc h.next 1) := by
      rw [PyM.run_bind_ok (run_tuple_check_ok hchk Option.none)]
      rfl
    show (tryCatch ((py_tuple._check ⟨some h.next⟩ Option.none : PyM Unit) >>=
          fun _ => pure (⟨some h.next⟩ : py_tuple))
        (fun e => (py_object.destroy ⟨some h.next⟩ : PyM Unit) >>= fun _ => throw e)).run
        (hA.modifyRc h.next 1) = _
    exact PyM.run_tryCatch_ok hin
  refine ⟨(hA.modifyRc h.next 1).modifyRc h.next (-1), ?_, ?_, ?_, ?_, ?_⟩
  · show ((pyTupleNew ((n : Nat) : Int) : PyM (Option Nat)) >>= fun raw =>
        (py_object.new_reference raw : PyM py_object) >>= fun tmp =>
        (py_tuple.fromObjMove tmp Option.none : PyM py_tuple) >>= fun t =>
        (py_object.destroy tmp : PyM Unit) >>= fun _ => pure t).run h = _
    simp only [PyM.run_bind_ok hnew]
    simp only [PyM.run_bind_ok (show (py_object.new_reference (some h.next)).run hA
        = EStateM.Result.ok (⟨some h.next⟩ : py_object) hA from rfl)]
    simp only [PyM.run_bind_ok hfoc]
    simp only [PyM.run_bind_ok (show (py_object.destroy (⟨some h.next⟩ : py_object)).run
        (hA.modifyRc h.next 1)
        = EStateM.Result.ok () ((hA.modifyRc h.next 1).modifyRc h.next (-1)) from rfl)]
    rfl
  · have f1 : (hA.modifyRc h.next 1).find? h.next
        = some ⟨1 + 1, PyVal.tupleV (List.replicate n Option.none)⟩ :=
      Heap.find?_modifyRc_self 1 hAfind
    have f2 : ((hA.modifyRc h.next 1).modifyRc h.next (-1)).find? h.next
        = some ⟨1 + 1 + -1, PyVal.tupleV (List.replicate n Option.none)⟩ :=
      Heap.find?_modifyRc_self (-1) f1
    rw [f2]
    simp only [Option.some.injEq, Entry.mk.injEq]
    exact ⟨by omega, trivial⟩
  · intro hf
    exact Heap.fresh_modifyRc _ _ (Heap.fresh_modifyRc _ _ (Heap.fresh_alloc _ hf))
  · rw [Heap.next_modifyRc, Heap.next_modifyRc]
    rw [hAdef]
    rfl
  · intro b hb
    rw [Heap.valOf_modifyRc, Heap.valOf_modifyRc]
    unfold Heap.valOf
    rw [hAdef, Heap.find?_alloc_ne _ hb]

/-- The `_set_tuple` filling invariant: running it over a list of
`converter<ssize_t>::to_python` conversions followed by an arbitrary tail
converts and stores the integers left to right into consecutive unset
slots of a count-1 tuple, then continues with the tail at the next
position; every other live address keeps its payload. -/
theorem set_tuple_fill (ks : List Int) (tail : List (PyM py_object)) :
    ∀ (h : Heap) (ta : Nat) (items : List (Option Nat)) (pos : Nat),
      h.fresh →
      h.find? ta = some ⟨1, PyVal.tupleV items⟩ →
      pos + ks.length ≤ items.length →
      (∀ j, pos ≤ j → j < items.length → items.getD j Option.none = Option.none) →
      ∃ (h₂ : Heap) (addrs : List Nat),
        (_set_tuple ⟨some ta⟩ ((pos : Nat) : Int)
            (ks.map converter_ssize_t.to_python ++ tail)).run h
          = (_set_tuple ⟨some ta⟩ (((pos + ks.length : Nat)) : Int) tail).run h₂
        ∧ addrs.length = ks.length
        ∧ h₂.find? ta = some ⟨1, PyVal.tupleV (fillFrom items pos addrs)⟩
        ∧ h₂.fresh
        ∧ h.next ≤ h₂.next
        ∧ (∀ b, b ≠ ta → b < h.next → h₂.valOf b = h.valOf b)
        ∧ (∀ i (hi : i < addrs.length) (hk : i < ks.length),
            h₂.valOf (addrs.get ⟨i, hi⟩) = some (PyVal.intV (ks.get ⟨i, hk⟩))) := by
  induction ks with
  | nil =>
      intro h ta items pos hfresh hta hlen hunset
      refine ⟨h, [], ?_, rfl, hta, hfresh, le_refl _, fun b _ _ => rfl, ?_⟩
      · simp only [List.length_nil, Nat.add_zero]
        rfl
      · intro i hi hk
        simp at hi
  | cons k ks ih =>
      intro h ta items pos hfresh hta hlen hunset
      have hta_lt : ta < h.next := by
        obtain ⟨q, hq, hq1⟩ := findEntry_mem hta
        have := hfresh q hq
        omega
      set hA := (h.alloc (PyVal.intV k)).2 with hAdef
      have hAfind_ta : hA.find? ta = some ⟨1, PyVal.tupleV items⟩ := by
        rw [hAdef, Heap.find?_alloc_ne _ (by omega : ta ≠ h.next)]
        exact hta
      have hposlt : pos < items.length := by
        simp [List.length_cons] at hlen
        omega
      have holdnone : items.getD pos Option.none = Option.none :=
        hunset pos (le_refl pos) hposlt
      set hD := (((hA.set ta ⟨1, PyVal.tupleV (items.set pos (some h.next))⟩).modifyRc
          h.next 1).modifyRc h.next (-1)) with hDdef
      have hstep := run_set_item_step pos h.next hAfind_ta hposlt holdnone
      have hDfind : hD.find? ta = some ⟨1, PyVal.tupleV (items.set pos (some h.next))⟩ := by
        rw [hDdef, Heap.find?_modifyRc_ne _ (by omega : h.next ≠ ta),
          Heap.find?_modifyRc_ne _ (by omega : h.next ≠ ta)]
        exact Heap.find?_set_self _ hAfind_ta
      have hDfresh : hD.fresh := by
        rw [hDdef]
        exact Heap.fresh_modifyRc _ _ (Heap.fresh_modifyRc _ _
          (Heap.fresh_set (Heap.fresh_alloc _ hfresh)))
      have hDnext : hD.next = h.next + 1 := by
        rw [hDdef, Heap.next_modifyRc, Heap.next_modifyRc, Heap.next_set, hAdef]
        rfl
      have hDvalnew : hD.valOf h.next = some (PyVal.intV k) := by
        rw [hDdef, Heap.valOf_modifyRc, Heap.valOf_modifyRc]
        unfold Heap.valOf
        rw [Heap.find?_set_ne _ (by omega : ta ≠ h.next), hAdef,
          Heap.find?_alloc_self h (PyVal.intV k)]
        rfl
      have hDvalother : ∀ b, b ≠ ta → b < h.next → hD.valOf b = h.valOf b := by
        intro b hbta hblt
        rw [hDdef, Heap.valOf_modifyRc, Heap.valOf_modifyRc]
        unfold Heap.valOf
        rw [Heap.find?_set_ne _ (by omega : ta ≠ b), hAdef,
          Heap.find?_alloc_ne _ (by omega : b ≠ h.next)]
      have hunset' : ∀ j, pos + 1 ≤ j → j < (items.set pos (some h.next)).length →
          (items.set pos (some h.next)).getD j Option.none = Option.none := by
        intro j hj hjlen
        rw [getD_set_ne items pos j (by omega)]
        exact hunset j (by omega) (by simpa using hjlen)
      have hlen' : (pos + 1) + ks.length ≤ (items.set pos (some h.next)).length := by
        simp [List.length_cons] at hlen ⊢
        omega
      obtain ⟨h₂, addrs, ihrun, ihlen, ihfind, ihfresh, ihnext, ihval, ihidx⟩ :=
        ih hD ta (items.set pos (some h.next)) (pos + 1) hDfresh hDfind hlen' hunset'
      refine ⟨h₂, h.next :: addrs, ?_, ?_, ihfind, ihfresh, ?_, ?_, ?_⟩
      · show ((converter_ssize_t.to_python k : PyM py_object) >>= fun v =>
            (tryCatch ((py_tuple.set_item ⟨some ta⟩ ((pos : Nat) : Int) v : PyM Unit) >>=
                fun _ => py_object.destroy v)
              (fun e => (py_object.destroy v : PyM Unit) >>= fun _ => throw e)) >>= fun _ =>
            _set_tuple ⟨some ta⟩ (((pos : Nat) : Int) + 1)
              (ks.map converter_ssize_t.to_python ++ tail)).run h = _
        simp only [PyM.run_bind_ok (run_conv_ssize_to_python h k)]
        simp only [PyM.run_bind_ok hstep]
        rw [← hDdef]
        rw [show (((pos : Nat) : Int) + 1) = (((pos + 1 : Nat)) : Int) by push_cast; ring]
        rw [ihrun]
        rw [show ((pos + 1) + ks.length : Nat) = pos + (k :: ks).length by
          simp [List.length_cons]; omega]
      · simp [ihlen]
      · rw [hDnext] at ihnext
        omega
      · intro b hbta hblt
        rw [ihval b hbta (by omega : b < hD.next)]
        exact hDvalother b hbta hblt
      · intro i hi hk
        cases i with
        | zero =>
            show h₂.valOf h.next = some (PyVal.intV k)
            rw [ihval h.next (by omega : h.next ≠ ta) (by omega : h.next < hD.next)]
            exact hDvalnew
        | succ i' =>
            have hi' : i' < addrs.length := by
              simp [List.length_cons] at hi
              omega
            have hk' : i' < ks.length := by
              simp [List.length_cons] at hk
              omega
            exact ihidx i' hi' hk'

/-- C6: `py_tuple::make` over converted integer arguments produces a tuple
of size n whose i-th slot holds `to_python` of the i-th argument, filled in
order left to right; when conversion of element k fails (a `to_python`
whose host allocation returned NULL), slots `0..k-1` are already populated,
every slot from k on is still unset, nothing after the failing element is
attempted (the error is independent of `rest`), and `pyerr_occurred` is
raised rather than the failure being swallowed. -/
theorem C6_make_fills_slots_in_order (ks : List Int) (h : Heap) (rest : List (PyM py_object))
    (hfresh : h.fresh) :
    (∃ (ta : Nat) (h₂ : Heap) (addrs : List Nat),
        (py_tuple.make (ks.map converter_ssize_t.to_python)).run h
          = EStateM.Result.ok (⟨some ta⟩ : py_tuple) h₂
      ∧ addrs.length = ks.length
      ∧ h₂.valOf ta = some (PyVal.tupleV (addrs.map some))
      ∧ py_tuple.size ⟨some ta⟩ h₂ = (ks.length : Int)
      ∧ (∀ i (hi : i < addrs.length) (hk : i < ks.length),
          h₂.valOf (addrs.get ⟨i, hi⟩) = some (PyVal.intV (ks.get ⟨i, hk⟩))))
    ∧ (∃ (ta : Nat) (h₃ : Heap) (addrs : List Nat),
        (py_tuple.make
            (ks.map converter_ssize_t.to_python ++ failing_to_python :: rest)).run h
          = EStateM.Result.error (PyErr.pyerr_occurred Option.none) h₃
      ∧ addrs.length = ks.length
      ∧ h₃.valOf ta = some (PyVal.tupleV
          (addrs.map some ++ List.replicate (1 + rest.length) Option.none))
      ∧ (∀ i (hi : i < addrs.length) (hk : i < ks.length),
          h₃.valOf (addrs.get ⟨i, hi⟩) = some (PyVal.intV (ks.get ⟨i, hk⟩)))) := by
  constructor
  · obtain ⟨hB, hBrun, hBfind, hBfreshf, hBnext, hBval⟩ :=
      run_make_empty_nat h (ks.map converter_ssize_t.to_python).length
    rw [List.length_map] at hBfind
    have hBfresh := hBfreshf hfresh
    obtain ⟨h₂, addrs, frun, flen, ffind, ffresh, fnext, fval, fidx⟩ :=
      set_tuple_fill ks [] hB h.next (List.replicate ks.length Option.none) 0 hBfresh hBfind
        (by simp) (fun j _ _ => getD_replicate_none ks.length j)
    have frun0 : (_set_tuple ⟨some h.next⟩ (0 : Int)
        (ks.map converter_ssize_t.to_python)).run hB = EStateM.Result.ok () h₂ := by
      rw [show (0 : Int) = ((0 : Nat) : Int) by norm_num]
      rw [show (ks.map converter_ssize_t.to_python)
          = (ks.map converter_ssize_t.to_python ++ []) by simp]
      rw [frun]
      rfl
    have hmain : (py_tuple.make (ks.map converter_ssize_t.to_python)).run h
        = EStateM.Result.ok (⟨some h.next⟩ : py_tuple) h₂ := by
      show ((py_tuple.make_empty (((ks.map converter_ssize_t.to_python).length : Nat) : Int)
            : PyM py_tuple) >>= fun ret =>
          tryCatch ((_set_tuple ret 0 (ks.map converter_ssize_t.to_python) : PyM Unit) >>=
              fun _ => pure ret)
            (fun e => (py_object.destroy ret.toBase : PyM Unit) >>= fun _ => throw e)).run h
          = _
      simp only [PyM.run_bind_ok hBrun]
      have hin : ((_set_tuple ⟨some h.next⟩ (0 : Int)
          (ks.map converter_ssize_t.to_python) : PyM Unit) >>= fun _ =>
          pure (⟨some h.next⟩ : py_tuple)).run hB
          = EStateM.Result.ok (⟨some h.next⟩ : py_tuple) h₂ := by
        rw [PyM.run_bind_ok frun0]
        rfl
      rw [PyM.run_tryCatch_ok hin]
    have hfill : fillFrom (List.replicate ks.length (Option.none : Option Nat)) 0 addrs
        = addrs.map some := by
      rw [fillFrom_replicate addrs ks.length (by omega)]
      rw [show ks.length - addrs.length = 0 by omega]
      simp
    have hvalta : h₂.valOf h.next = some (PyVal.tupleV (addrs.map some)) := by
      unfold Heap.valOf
      rw [ffind, hfill]
      rfl
    refine ⟨h.next, h₂, addrs, hmain, flen, hvalta, ?_, fidx⟩
    have hsz : py_tuple.size ⟨some h.next⟩ h₂
        = (match h₂.valOf h.next with
           | some (PyVal.tupleV its) => (its.length : Int)
           | _ => (-1 : Int)) := rfl
    rw [hsz, hvalta]
    simp [flen]
  · obtain ⟨hB, hBrun, hBfind, hBfreshf, hBnext, hBval⟩ :=
      run_make_empty_nat h
        (ks.map converter_ssize_t.to_python ++ failing_to_python :: rest).length
    have hBfresh := hBfreshf hfresh
    have hlenn : (ks.map converter_ssize_t.to_python ++ failing_to_python :: rest).length
        = ks.length + (1 + rest.length) := by
      simp [List.length_append, List.length_map, List.length_cons]
      omega
    rw [hlenn] at hBfind
    obtain ⟨h₂, addrs, frun, flen, ffind, ffresh, fnext, fval, fidx⟩ :=
      set_tuple_fill ks (failing_to_python :: rest) hB h.next
        (List.replicate (ks.length + (1 + rest.length)) Option.none) 0 hBfresh hBfind
        (by simp) (fun j _ _ => getD_replicate_none _ j)
    have htail : (_set_tuple ⟨some h.next⟩ (((0 + ks.length : Nat)) : Int)
        (failing_to_python :: rest)).run h₂
        = EStateM.Result.error (PyErr.pyerr_occurred Option.none) h₂ := by
      show ((failing_to_python : PyM py_object) >>= fun v =>
          (tryCatch ((py_tuple.set_item ⟨some h.next⟩ (((0 + ks.length : Nat)) : Int) v
                : PyM Unit) >>= fun _ => py_object.destroy v)
            (fun e => (py_object.destroy v : PyM Unit) >>= fun _ => throw e)) >>= fun _ =>
          _set_tuple ⟨some h.next⟩ ((((0 + ks.length : Nat)) : Int) + 1) rest).run h₂ = _
      exact PyM.run_bind_error (run_failing_to_python h₂)
    have frun0 : (_set_tuple ⟨some h.next⟩ (0 : Int)
        (ks.map converter_ssize_t.to_python ++ failing_to_python :: rest)).run hB
        = EStateM.Result.error (PyErr.pyerr_occurred Option.none) h₂ := by
      rw [show (0 : Int) = ((0 : Nat) : Int) by norm_num]
      rw [frun, htail]
    have hmain : (py_tuple.make
        (ks.map converter_ssize_t.to_python ++ failing_to_python :: rest)).run h
        = EStateM.Result.error (PyErr.pyerr_occurred Option.none)
            (h₂.modifyRc h.next (-1)) := by
      show ((py_tuple.make_empty
            (((ks.map converter_ssize_t.to_python ++ failing_to_python :: rest).length
              : Nat) : Int) : PyM py_tuple) >>= fun ret =>
          tryCatch ((_set_tuple ret 0
              (ks.map converter_ssize_t.to_python ++ failing_to_python :: rest)
              : PyM Unit) >>= fun _ => pure ret)
            (fun e => (py_object.destroy ret.toBase : PyM Unit) >>= fun _ => throw e)).run h
          = _
      simp only [PyM.run_bind_ok hBrun]
      have hin : ((_set_tuple ⟨some h.next⟩ (0 : Int)
          (ks.map converter_ssize_t.to_python ++ failing_to_python :: rest) : PyM Unit) >>=
          fun _ => pure (⟨some h.next⟩ : py_tuple)).run hB
          = EStateM.Result.error (PyErr.pyerr_occurred Option.none) h₂ :=
        PyM.run_bind_error frun0
      rw [PyM.run_tryCatch_error hin]
      rfl
    have hfill : fillFrom
        (List.replicate (ks.length + (1 + rest.length)) (Option.none : Option Nat)) 0 addrs
        = addrs.map some ++ List.replicate (1 + rest.length) Option.none := by
      rw [fillFrom_replicate addrs (ks.length + (1 + rest.length)) (by omega)]
      rw [show ks.length + (1 + rest.length) - addrs.length = 1 + rest.length by omega]
    have hvalta : (h₂.modifyRc h.next (-1)).valOf h.next
        = some (PyVal.tupleV
            (addrs.map some ++ List.replicate (1 + rest.length) Option.none)) := by
      rw [Heap.valOf_modifyRc]
      unfold Heap.valOf
      rw [ffind, hfill]
      rfl
    refine ⟨h.next, h₂.modifyRc h.next (-1), addrs, hmain, flen, hvalta, ?_⟩
    intro i hi hk
    rw [Heap.valOf_modifyRc]
    exact fidx i hi hk

/-- Witness for C6 at a concrete input: `make` over the two integers 5 and
7 on `heap0`, with an empty `rest` for the failure half. -/
theorem C6_witness :
    (∃ (ta : Nat) (h₂ : Heap) (addrs : List Nat),
        (py_tuple.make ([5, 7].map converter_ssize_t.to_python)).run heap0
          = EStateM.Result.ok (⟨some ta⟩ : py_tuple) h₂
      ∧ addrs.length = [5, 7].length
      ∧ h₂.valOf ta = some (PyVal.tupleV (addrs.map some))
      ∧ py_tuple.size ⟨some ta⟩ h₂ = (([5, 7] : List Int).length : Int)
      ∧ (∀ i (hi : i < addrs.length) (hk : i < ([5, 7] : List Int).length),
          h₂.valOf (addrs.get ⟨i, hi⟩)
            = some (PyVal.intV (([5, 7] : List Int).get ⟨i, hk⟩))))
    ∧ (∃ (ta : Nat) (h₃ : Heap) (addrs : List Nat),
        (py_tuple.make
            ([5, 7].map converter_ssize_t.to_python ++ failing_to_python :: [])).run heap0
          = EStateM.Result.error (PyErr.pyerr_occurred Option.none) h₃
      ∧ addrs.length = [5, 7].length
      ∧ h₃.valOf ta = some (PyVal.tupleV
          (addrs.map some ++ List.replicate (1 + List.length ([] : List (PyM py_object)))
            Option.none))
      ∧ (∀ i (hi : i < addrs.length) (hk : i < ([5, 7] : List Int).length),
          h₃.valOf (addrs.get ⟨i, hi⟩)
            = some (PyVal.intV (([5, 7] : List Int).get ⟨i, hk⟩)))) :=
  C6_make_fills_slots_in_order [5, 7] heap0 [] (by unfold Heap.fresh; decide)

end Pyclops
